/-
Verification of the terminal memory-game session engine.

The development shallowly embeds the server-side game logic:
  * round generation (`generateNumbers`, `generateFakeNumber`,
    `createSelectionOptions`, `getRoundConfig` from `lib/gameLogic`),
  * the in-memory player/session store with its cooldown gate and streak
    tracking (`lib/store`),
  * the answer-submission HTTP handler (`app/api/game/submit/route.ts`),
  * the daily-limit variant of the store with its token cap
    (`Daily` namespace).

JavaScript `Math.random()`-driven choices are modelled by an explicit
random source `Rng`: a stream of draws for `Math.floor(Math.random()*900)`
and a family of permutations for the random comparator shuffles
(an array sorted under an inconsistent comparator is some permutation of
its input).  Rejection-sampling loops take explicit fuel and return
`none` where the source code would keep looping, timestamps are
milliseconds as naturals, and UTC calendar dates are explicit
year/month/day triples.
-/
import Mathlib

set_option linter.unusedVariables false
set_option linter.unnecessarySeqFocus false


/-! ### Association-list maps

JavaScript `Map` objects (`players`, `sessions` in `lib/store`) are
modelled as association lists: `set` overwrites in place, `get` returns
the first binding. -/

def lookupK {K V : Type} [DecidableEq K] (k : K) : List (K × V) → Option V
  | [] => none
  | (a, b) :: t => if a = k then some b else lookupK k t

def setK {K V : Type} [DecidableEq K] (k : K) (v : V) : List (K × V) → List (K × V)
  | [] => [(k, v)]
  | (a, b) :: t => if a = k then (k, v) :: t else (a, b) :: setK k v t

/-! ### Random source -/

/-- Model of the implicit JavaScript randomness used by the game logic.
`draw i` is the `i`-th value of `Math.floor(Math.random() * 900)`
(reduced mod 900 so each draw lies in `[0, 899]`), and `shuf i` is the
permutation produced by the `i`-th `sort(() => Math.random() - 0.5)`
call: whatever the comparator does, `Array.prototype.sort` returns a
permutation of its input. -/
structure Rng where
  draw : Nat → Nat
  shuf : Nat → List Nat → List Nat
  shuf_perm : ∀ i l, List.Perm (shuf i l) l

/-- A deterministic source: draws `0, 1, 2, …` and identity shuffles. -/
def rngId : Rng :=
  ⟨fun i => i, fun _ l => l, fun _ l => List.Perm.refl l⟩

/-! ### Game configuration (`lib/gameLogic`, current variant) -/

structure RoundConfig where
  round : Nat
  numberCount : Nat
  displayTime : Nat
  optionCount : Nat
deriving DecidableEq, Repr

def roundConfig1 : RoundConfig := ⟨1, 5, 10, 3⟩

def ROUND_CONFIG : List RoundConfig :=
  [roundConfig1, ⟨2, 4, 10, 3⟩, ⟨3, 3, 10, 3⟩]

def MAX_SESSIONS_PER_COOLDOWN : Nat := 1

def COOLDOWN_MINUTES : Nat := 5

def MAX_TOKENS_PER_SESSION : Nat := 50

def TOKENS_PER_CORRECT : Nat := 10

def BONUS_TOKENS : Nat := 20

def TOTAL_ROUNDS : Nat := 3

/-- JavaScript array indexing `l[i]`: `undefined` (`none`) off either end. -/
def jsIndex {α : Type} (l : List α) (i : Int) : Option α :=
  if i < 0 then none else l[i.toNat]?

/-- `getRoundConfig(round)`: `ROUND_CONFIG[round - 1] || ROUND_CONFIG[0]`. -/
def getRoundConfig (round : Int) : RoundConfig :=
  match jsIndex ROUND_CONFIG (round - 1) with
  | some c => c
  | none => roundConfig1

/-! ### Round generation (`lib/gameLogic`) -/

/-- Loop body of `generateNumbers`: keep drawing 3-digit numbers,
skipping duplicates (JS `Set.add`), until `count` distinct values are
collected.  `fuel` bounds the number of iterations; `idx` is the position
in the draw stream; returns the collected list (insertion order, as
`Array.from` of a `Set`) and the next stream position. -/
def genNumbersAux (rng : Rng) (count : Nat) : Nat → Nat → List Nat → Option (List Nat × Nat)
  | 0, idx, acc => if acc.length < count then none else some (acc, idx)
  | fuel + 1, idx, acc =>
    if acc.length < count then
      let num := rng.draw idx % 900 + 100
      genNumbersAux rng count fuel (idx + 1) (if num ∈ acc then acc else acc ++ [num])
    else some (acc, idx)

/-- `generateNumbers(count)`: `count` distinct random values in `[100, 999]`. -/
def generateNumbers (rng : Rng) (count fuel : Nat) : Option (List Nat × Nat) :=
  genNumbersAux rng count fuel 0 []

/-- `generateFakeNumber(shownNumbers)`: draw until the value is not among
the shown numbers (do/while rejection loop). -/
def generateFakeNumber (rng : Rng) (shownNumbers : List Nat) : Nat → Nat → Option (Nat × Nat)
  | 0, _ => none
  | fuel + 1, idx =>
    let num := rng.draw idx % 900 + 100
    if num ∈ shownNumbers then generateFakeNumber rng shownNumbers fuel (idx + 1)
    else some (num, idx + 1)

/-- JavaScript `l.slice(0, e)`: a negative end counts from the end of the
array. -/
def jsSliceEnd {α : Type} (l : List α) (e : Int) : List α :=
  if e < 0 then l.take ((l.length : Int) + e).toNat else l.take e.toNat

/-- `createSelectionOptions(shownNumbers, fakeNumber, optionCount)`:
shuffle the shown numbers, keep the first `optionCount - 1`, append the
fake number and shuffle again.  `si` indexes the two shuffle calls. -/
def createSelectionOptions (rng : Rng) (si : Nat) (shownNumbers : List Nat)
    (fakeNumber : Nat) (optionCount : Int) : List Nat :=
  let shuffled := rng.shuf si shownNumbers
  let realNumbers := jsSliceEnd shuffled (optionCount - 1)
  rng.shuf (si + 1) (realNumbers ++ [fakeNumber])

/-! ### UTC calendar dates

`lib/store` and `lib/gameLogic` only ever read `getUTCFullYear`,
`getUTCMonth` (0-based) and `getUTCDate` (1-based) from stored dates, so
a date is modelled as that triple. -/

structure Date3 where
  year : Int
  month : Nat
  day : Nat
deriving DecidableEq, Repr

def isLeapYear (y : Int) : Bool :=
  (y % 4 = 0 && y % 100 != 0) || y % 400 = 0

def daysInMonth (y : Int) (m : Nat) : Nat :=
  if m = 1 then (if isLeapYear y then 29 else 28)
  else if m = 3 ∨ m = 5 ∨ m = 8 ∨ m = 10 then 30
  else 31

/-- The calendar day before `d`, as computed by
`yesterday.setUTCDate(yesterday.getUTCDate() - 1)` on a UTC date. -/
def prevDay (d : Date3) : Date3 :=
  if 2 ≤ d.day then ⟨d.year, d.month, d.day - 1⟩
  else if d.month = 0 then ⟨d.year - 1, 11, 31⟩
  else ⟨d.year, d.month - 1, daysInMonth d.year (d.month - 1)⟩

/-- The streak computation of `recordSessionCompletion`, carved out as the
pure function of `(today, lastStreakDate, currentStreak)` it implements:
the stored last streak date is compared field-wise against today and
against yesterday (`isYesterday` first, then `!isSameDay`). -/
def streakUpdate (today : Date3) (lastStreakDate : Option Date3) (currentStreak : Nat) : Nat :=
  match lastStreakDate with
  | none => 1
  | some l =>
    if l = prevDay today then currentStreak + 1
    else if l ≠ today then 1
    else currentStreak

/-! ### In-memory store (`lib/store`, current cooldown variant) -/

structure PlayerData where
  fid : Nat
  sessionsInCooldown : Nat
  lastPlayedAt : Option Nat
  cooldownEndsAt : Option Nat
  totalTokens : Nat
  perfectSessions : Nat
  currentStreak : Nat
  lastStreakDate : Option Date3
deriving DecidableEq, Repr

structure GameSession where
  id : String
  fid : Nat
  round : Nat
  shownNumbers : List Nat
  fakeNumber : Nat
  selectionOptions : List Nat
  nonce : String
  startedAt : Nat
  roundStartedAt : Nat
  displayTime : Nat
  tokensEarned : Nat
  completed : Bool
  correctAnswers : Nat
  wrongAnswers : Nat
deriving DecidableEq, Repr

structure Store where
  players : List (Nat × PlayerData)
  sessions : List (String × GameSession)
deriving DecidableEq, Repr

def freshPlayer (fid : Nat) : PlayerData :=
  ⟨fid, 0, none, none, 0, 0, 0, none⟩

/-- `isCooldownExpired(cooldownEndsAt)`: a missing end time counts as
expired, otherwise `new Date() >= cooldownEndsAt`. -/
def isCooldownExpired (now : Nat) : Option Nat → Bool
  | none => true
  | some e => decide (e ≤ now)

/-- `getPlayer(fid)`: create the record lazily, then reset the cooldown
window in place the moment it is observed to be expired. -/
def getPlayer (now : Nat) (st : Store) (fid : Nat) : PlayerData × Store :=
  match lookupK fid st.players with
  | none =>
    let p := freshPlayer fid
    (p, { st with players := setK fid p st.players })
  | some p =>
    if isCooldownExpired now p.cooldownEndsAt then
      let p' := { p with sessionsInCooldown := 0, cooldownEndsAt := none }
      (p', { st with players := setK fid p' st.players })
    else (p, st)

/-- `updatePlayer(fid, updates)`: re-fetch the player (with its lazy
reset) and overwrite the given fields. -/
def updatePlayer (now : Nat) (st : Store) (fid : Nat) (upd : PlayerData → PlayerData) :
    PlayerData × Store :=
  let r := getPlayer now st fid
  let u := upd r.1
  (u, { r.2 with players := setK fid u r.2.players })

/-- Result record of `canStartSession`; the human-readable `reason`
string of the source is presentational and omitted. -/
structure CanStart where
  allowed : Bool
  cooldownEndsAt : Option Nat
deriving DecidableEq, Repr

/-- `canStartSession(fid)`: denied while the attempt counter has reached
`MAX_SESSIONS_PER_COOLDOWN` and the window is still open. -/
def canStartSession (now : Nat) (st : Store) (fid : Nat) : CanStart × Store :=
  let r := getPlayer now st fid
  if MAX_SESSIONS_PER_COOLDOWN ≤ r.1.sessionsInCooldown ∧
      ¬ isCooldownExpired now r.1.cooldownEndsAt = true then
    (⟨false, r.1.cooldownEndsAt⟩, r.2)
  else (⟨true, none⟩, r.2)

def createSession (st : Store) (session : GameSession) : Store :=
  { st with sessions := setK session.id session st.sessions }

def getSession (st : Store) (sessionId : String) : Option GameSession :=
  lookupK sessionId st.sessions

def updateSession (st : Store) (sessionId : String) (upd : GameSession → GameSession) : Store :=
  match lookupK sessionId st.sessions with
  | none => st
  | some s => { st with sessions := setK sessionId (upd s) st.sessions }

def deleteSession (st : Store) (sessionId : String) : Store :=
  { st with sessions := st.sessions.filter (fun kv => kv.1 ≠ sessionId) }

/-- `startSessionCooldown(fid)`: engage the gate the moment a game
starts — bump the attempt counter and set
`cooldownEndsAt = now + COOLDOWN_MINUTES * 60 * 1000`. -/
def startSessionCooldown (now : Nat) (st : Store) (fid : Nat) : Store :=
  let r := getPlayer now st fid
  let cooldownEnd := now + COOLDOWN_MINUTES * 60 * 1000
  (updatePlayer now r.2 fid (fun q =>
    { q with sessionsInCooldown := r.1.sessionsInCooldown + 1,
             lastPlayedAt := some now,
             cooldownEndsAt := some cooldownEnd })).2

/-- `recordSessionCompletion(fid, perfect)`: bump `perfectSessions` on a
perfect game and apply the streak rules; `currentStreak` is left out of
the update object on a same-day completion, `lastStreakDate` is always
set to today. -/
def recordSessionCompletion (now : Nat) (today : Date3) (st : Store) (fid : Nat)
    (perfect : Bool) : Store :=
  let r := getPlayer now st fid
  (updatePlayer now r.2 fid (fun q =>
    let q1 := if perfect then { q with perfectSessions := r.1.perfectSessions + 1 } else q
    let q2 :=
      match r.1.lastStreakDate with
      | some l =>
        if l = prevDay today then { q1 with currentStreak := r.1.currentStreak + 1 }
        else if l ≠ today then { q1 with currentStreak := 1 }
        else q1
      | none => { q1 with currentStreak := 1 }
    { q2 with lastStreakDate := some today })).2

/-- `getPlayerStats(fid)` (store side-effect and the fields the
contracts read; formatted strings omitted). -/
structure PlayerStats where
  sessionsUsed : Nat
  canPlay : Bool
  cooldownEndsAt : Option Nat
  totalTokens : Nat
  perfectSessions : Nat
  currentStreak : Nat
deriving DecidableEq, Repr

def getPlayerStats (now : Nat) (st : Store) (fid : Nat) : PlayerStats × Store :=
  let r := getPlayer now st fid
  (⟨r.1.sessionsInCooldown,
    isCooldownExpired now r.1.cooldownEndsAt ||
      decide (r.1.sessionsInCooldown < MAX_SESSIONS_PER_COOLDOWN),
    r.1.cooldownEndsAt, r.1.totalTokens, r.1.perfectSessions, r.1.currentStreak⟩, r.2)

/-! ### Answer submission (`app/api/game/submit/route.ts`, lenient
variant: a wrong answer forfeits the round's reward and play continues) -/

inductive ErrKind where
  | missingFields
  | notFound
  | forbidden
  | invalidNonce
  | alreadyCompleted
  | internal
deriving DecidableEq, Repr

/-- Body of the submit request.  A field absent from the JSON is `0`
(falsy `fid`), `""` (falsy strings) or `none` (`selectedNumber`), which
is exactly what the handler's presence check tests. -/
structure SubmitReq where
  fid : Nat
  sessionId : String
  selectedNumber : Option Int
  nonce : String
deriving DecidableEq, Repr

inductive SubmitResult where
  | err (e : ErrKind)
  | next (correct : Bool) (tokensEarned : Nat) (round : Nat) (numbers : List Nat)
      (displayTimeMs : Nat) (nonce : String)
  | terminal (correct : Bool) (sessionComplete : Bool) (tokensEarned : Nat)
      (correctAnswers : Nat) (wrongAnswers : Nat) (totalTime : Nat) (perfectGame : Bool)
deriving DecidableEq, Repr

/-- The `POST` handler of `app/api/game/submit/route.ts`.  `now` is the
request time (ms), `today` its UTC date, `rng`/`fuel` drive the next
round's generation, `freshNonce` is the `generateNonce()` result for the
next round.  The Supabase `addPlayerTokens` call is external fire-and-
forget I/O (non-fatal on failure) and does not touch the in-memory
store. -/
def postSubmit (now : Nat) (today : Date3) (rng : Rng) (fuel : Nat) (freshNonce : String)
    (req : SubmitReq) (st : Store) : SubmitResult × Store :=
  if req.fid = 0 ∨ req.sessionId = "" ∨ req.selectedNumber = none ∨ req.nonce = "" then
    (.err .missingFields, st)
  else
    match lookupK req.sessionId st.sessions with
    | none => (.err .notFound, st)
    | some s =>
      if s.fid ≠ req.fid then (.err .forbidden, st)
      else if s.nonce ≠ req.nonce then (.err .invalidNonce, st)
      else if s.completed then (.err .alreadyCompleted, st)
      else
        let isCorrect : Bool := req.selectedNumber = some (s.fakeNumber : Int)
        let tokensAwarded := if isCorrect then TOKENS_PER_CORRECT else 0
        let newCorrectAnswers := if isCorrect then s.correctAnswers + 1 else s.correctAnswers
        let newWrongAnswers := if isCorrect then s.wrongAnswers else s.wrongAnswers + 1
        let newTokensEarned := s.tokensEarned + tokensAwarded
        if TOTAL_ROUNDS ≤ s.round then
          let st1 := updateSession st req.sessionId (fun t =>
            { t with completed := true, tokensEarned := newTokensEarned,
                     correctAnswers := newCorrectAnswers, wrongAnswers := newWrongAnswers })
          let perfect : Bool := newWrongAnswers = 0
          let st2 := recordSessionCompletion now today st1 req.fid perfect
          let st3 := (getPlayerStats now st2 req.fid).2
          let totalTime := (now - s.startedAt) / 1000
          (.terminal isCorrect true newTokensEarned newCorrectAnswers newWrongAnswers
            totalTime perfect, st3)
        else
          let nextRound := s.round + 1
          let cfg := getRoundConfig (nextRound : Int)
          match generateNumbers rng cfg.numberCount fuel with
          | none => (.err .internal, st)
          | some (shown, di) =>
            match generateFakeNumber rng shown fuel di with
            | none => (.err .internal, st)
            | some (fake, _) =>
              let opts := createSelectionOptions rng 0 shown fake (cfg.optionCount : Int)
              let st1 := updateSession st req.sessionId (fun t =>
                { t with round := nextRound, shownNumbers := shown, fakeNumber := fake,
                         selectionOptions := opts, nonce := freshNonce,
                         roundStartedAt := now, displayTime := cfg.displayTime,
                         tokensEarned := newTokensEarned,
                         correctAnswers := newCorrectAnswers,
                         wrongAnswers := newWrongAnswers })
              (.next isCorrect tokensAwarded nextRound shown (cfg.displayTime * 1000)
                freshNonce, st1)

/-! ### Session start -/

inductive StartResult where
  | ok (sessionId : String) (round : Nat) (numbers : List Nat) (displayTimeMs : Nat)
      (nonce : String)
  | rateLimited (cooldownEndsAt : Option Nat)
  | internal
deriving DecidableEq, Repr

/-- Modelled from the spec: the game start route
(`app/api/game/start/route.ts`) is absent from the provided sources —
only the client calls to `/api/game/start` and the store primitives it
uses (`canStartSession`, `createSession`, `startSessionCooldown`) are
present.  Per §4.2 of the spec, `StartSession` consults the cooldown
gate (failing with `RateLimited` carrying the cooldown end time),
generates round 1 data, creates the session in `ROUND_ACTIVE(1)` and
immediately engages the cooldown, returning the session id, shown
numbers, display duration and round nonce. -/
def startSession (now : Nat) (rng : Rng) (fuel : Nat) (nonce sessionId : String)
    (fid : Nat) (st : Store) : StartResult × Store :=
  let canStart := canStartSession now st fid
  if canStart.1.allowed then
    let cfg := getRoundConfig 1
    match generateNumbers rng cfg.numberCount fuel with
    | none => (.internal, canStart.2)
    | some (shown, di) =>
      match generateFakeNumber rng shown fuel di with
      | none => (.internal, canStart.2)
      | some (fake, _) =>
        let opts := createSelectionOptions rng 0 shown fake (cfg.optionCount : Int)
        let session : GameSession :=
          ⟨sessionId, fid, 1, shown, fake, opts, nonce, now, now, cfg.displayTime,
            0, false, 0, 0⟩
        let st1 := createSession canStart.2 session
        let st2 := startSessionCooldown now st1 fid
        (.ok sessionId 1 shown (cfg.displayTime * 1000) nonce, st2)
  else (.rateLimited canStart.1.cooldownEndsAt, canStart.2)

/-! ### Daily-limit variant (`lib/store` of the daily variant, with
`MAX_SESSIONS_PER_DAY`/`MAX_TOKENS_PER_DAY` from its `lib/gameLogic`) -/

namespace Daily

def MAX_SESSIONS_PER_DAY : Int := 3
def MAX_TOKENS_PER_DAY : Int := 3

structure PlayerData where
  fid : Nat
  dailySessions : Int
  lastPlayedAt : Option Date3
  tokensToday : Int
  totalTokens : Int
  perfectSessions : Int
  currentStreak : Int
  lastStreakDate : Option Date3
deriving DecidableEq, Repr

def freshPlayer (fid : Nat) : PlayerData :=
  ⟨fid, 0, none, 0, 0, 0, 0, none⟩

abbrev StoreD := List (Nat × PlayerData)

/-- Daily `getPlayer(fid)`: create lazily; reset the daily counters in
place when the stored `lastPlayedAt` is not today (`isToday` compares
UTC year/month/day). -/
def getPlayer (today : Date3) (st : StoreD) (fid : Nat) : PlayerData × StoreD :=
  match lookupK fid st with
  | none =>
    let p := freshPlayer fid
    (p, setK fid p st)
  | some p =>
    match p.lastPlayedAt with
    | some lp =>
      if lp ≠ today then
        let p' := { p with dailySessions := 0, tokensToday := 0 }
        (p', setK fid p' st)
      else (p, st)
    | none => (p, st)

def updatePlayer (today : Date3) (st : StoreD) (fid : Nat)
    (upd : PlayerData → PlayerData) : PlayerData × StoreD :=
  let r := getPlayer today st fid
  let u := upd r.1
  (u, setK fid u r.2)

/-- `awardTokens(fid, amount)`: credit
`min(amount, MAX_TOKENS_PER_DAY - tokensToday)` (no update when the
credit is not positive) and return the amount actually credited. -/
def awardTokens (today : Date3) (st : StoreD) (fid : Nat) (amount : Int) : Int × StoreD :=
  let r := getPlayer today st fid
  let tokensToAward := min amount (MAX_TOKENS_PER_DAY - r.1.tokensToday)
  if 0 < tokensToAward then
    (tokensToAward, (updatePlayer today r.2 fid (fun q =>
      { q with tokensToday := r.1.tokensToday + tokensToAward,
               totalTokens := r.1.totalTokens + tokensToAward })).2)
  else (tokensToAward, r.2)

/-- A finite sequence of `awardTokens` credit calls for one player
within one period. -/
def creditSeq (today : Date3) (st : StoreD) (fid : Nat) (amounts : List Int) : StoreD :=
  amounts.foldl (fun s a => (awardTokens today s fid a).2) st

end Daily

/-! ### Store lemmas -/

/-- The player record with its cooldown window reset. -/
def resetCooldown (p : PlayerData) : PlayerData :=
  { p with sessionsInCooldown := 0, cooldownEndsAt := none }

/-! ### Branch equations for the submit handler -/

def isCorrectB (req : SubmitReq) (s : GameSession) : Bool :=
  req.selectedNumber = some (s.fakeNumber : Int)

def nextCorrect (req : SubmitReq) (s : GameSession) : Nat :=
  if isCorrectB req s then s.correctAnswers + 1 else s.correctAnswers

def nextWrong (req : SubmitReq) (s : GameSession) : Nat :=
  if isCorrectB req s then s.wrongAnswers else s.wrongAnswers + 1

def nextTokens (req : SubmitReq) (s : GameSession) : Nat :=
  s.tokensEarned + (if isCorrectB req s then TOKENS_PER_CORRECT else 0)

/-! ### Concrete fixtures for witnesses -/

def sessW : GameSession :=
  ⟨"s1", 7, 1, [100, 101, 102, 103, 104], 105, [100, 101, 105], "n1", 0, 0, 10, 0, false, 0, 0⟩

def sessWdone : GameSession :=
  ⟨"s1", 7, 3, [100, 101, 102], 105, [100, 101, 105], "n1", 0, 0, 10, 30, true, 3, 0⟩

def storeW : Store := ⟨[], [("s1", sessW)]⟩

def storeWdone : Store := ⟨[], [("s1", sessWdone)]⟩

/-! ### Daily-variant lemmas -/

/-- Per-period invariant of the daily ledger: no stored player is above
the daily token cap. -/
def InvD (st : Daily.StoreD) : Prop :=
  ∀ pr ∈ st, (pr.2).tokensToday ≤ Daily.MAX_TOKENS_PER_DAY

/-- Invariant tying a session's earned tokens to its correct-answer
count and bounding its round index; it holds for freshly started
sessions and is preserved by the submit handler. -/
def sessionTokensInv (s : GameSession) : Prop :=
  s.tokensEarned = TOKENS_PER_CORRECT * s.correctAnswers ∧
  (s.completed = false → s.correctAnswers + s.wrongAnswers + 1 = s.round ∧
    s.round ≤ TOTAL_ROUNDS) ∧
  (s.completed = true → s.correctAnswers + s.wrongAnswers = TOTAL_ROUNDS)

def sessW3 : GameSession :=
  ⟨"s1", 7, 3, [100, 101, 102], 105, [100, 101, 105], "n1", 0, 0, 10, 20, false, 2, 0⟩

def storeW3 : Store := ⟨[], [("s1", sessW3)]⟩

/-! ### Theorems -/

theorem lookupK_setK_self {K V : Type} [DecidableEq K] (k : K) (v : V) :
    ∀ l : List (K × V), lookupK k (setK k v l) = some v := by
  intro l
  induction l with
  | nil => simp [lookupK, setK]
  | cons h t ih =>
    obtain ⟨a, b⟩ := h
    by_cases hak : a = k <;> simp [lookupK, setK, hak, ih]

theorem lookupK_setK_ne {K V : Type} [DecidableEq K] (k k' : K) (v : V) (hne : k' ≠ k) :
    ∀ l : List (K × V), lookupK k' (setK k v l) = lookupK k' l := by
  intro l
  induction l with
  | nil => simp [lookupK, setK, hne.symm]
  | cons h t ih =>
    obtain ⟨a, b⟩ := h
    by_cases hak : a = k
    · subst hak
      simp [lookupK, setK, hne.symm]
    · simp [lookupK, setK, hak, ih]

theorem setK_setK {K V : Type} [DecidableEq K] (k : K) (v v' : V) :
    ∀ l : List (K × V), setK k v (setK k v' l) = setK k v l := by
  intro l
  induction l with
  | nil => simp [setK]
  | cons h t ih =>
    obtain ⟨a, b⟩ := h
    by_cases hak : a = k <;> simp [setK, hak, ih]

/-! ### Properties of the generators -/

theorem genNumbersAux_spec (rng : Rng) (count : Nat) :
    ∀ fuel idx acc l di, acc.Nodup → (∀ x ∈ acc, 100 ≤ x ∧ x ≤ 999) →
      acc.length ≤ count →
      genNumbersAux rng count fuel idx acc = some (l, di) →
      l.length = count ∧ l.Nodup ∧ ∀ x ∈ l, 100 ≤ x ∧ x ≤ 999 := by
  intro fuel
  induction fuel with
  | zero =>
    intro idx acc l di hnd hrange hlen h
    simp only [genNumbersAux] at h
    split at h
    · exact absurd h (by simp)
    · rename_i hge
      simp only [Option.some.injEq, Prod.mk.injEq] at h
      obtain ⟨rfl, rfl⟩ := h
      exact ⟨le_antisymm hlen (le_of_not_lt hge), hnd, hrange⟩
  | succ fuel ih =>
    intro idx acc l di hnd hrange hlen h
    simp only [genNumbersAux] at h
    split at h
    · rename_i hlt
      by_cases hmem : rng.draw idx % 900 + 100 ∈ acc
      · rw [if_pos hmem] at h
        exact ih (idx + 1) acc l di hnd hrange hlen h
      · rw [if_neg hmem] at h
        refine ih (idx + 1) _ l di ?_ ?_ ?_ h
        · simp [List.nodup_append, hnd, hmem]
        · intro x hx
          rcases List.mem_append.1 hx with hx | hx
          · exact hrange x hx
          · rcases List.mem_singleton.1 hx with rfl
            refine ⟨Nat.le_add_left _ _, ?_⟩
            have : rng.draw idx % 900 < 900 := Nat.mod_lt _ (by norm_num)
            omega
        · simp only [List.length_append, List.length_singleton]
          omega
    · rename_i hge
      simp only [Option.some.injEq, Prod.mk.injEq] at h
      obtain ⟨rfl, rfl⟩ := h
      exact ⟨le_antisymm hlen (le_of_not_lt hge), hnd, hrange⟩

theorem generateNumbers_spec (rng : Rng) (count fuel : Nat) (l : List Nat) (di : Nat)
    (h : generateNumbers rng count fuel = some (l, di)) :
    l.length = count ∧ l.Nodup ∧ ∀ x ∈ l, 100 ≤ x ∧ x ≤ 999 :=
  genNumbersAux_spec rng count fuel 0 [] l di (by simp) (by simp) (by simp) h

theorem generateFakeNumber_spec (rng : Rng) (shown : List Nat) :
    ∀ fuel idx f di, generateFakeNumber rng shown fuel idx = some (f, di) →
      (100 ≤ f ∧ f ≤ 999) ∧ f ∉ shown := by
  intro fuel
  induction fuel with
  | zero => intro idx f di h; exact absurd h (by simp [generateFakeNumber])
  | succ fuel ih =>
    intro idx f di h
    simp only [generateFakeNumber] at h
    split at h
    · exact ih (idx + 1) f di h
    · rename_i hmem
      simp only [Option.some.injEq, Prod.mk.injEq] at h
      obtain ⟨rfl, rfl⟩ := h
      refine ⟨⟨Nat.le_add_left _ _, ?_⟩, hmem⟩
      have : rng.draw idx % 900 < 900 := Nat.mod_lt _ (by norm_num)
      omega

theorem createSelectionOptions_spec (rng : Rng) (si : Nat) (shown : List Nat)
    (fake : Nat) (optionCount : Int)
    (hnd : shown.Nodup) (hfake : fake ∉ shown)
    (hoc : 1 ≤ optionCount) (hle : optionCount - 1 ≤ (shown.length : Int)) :
    ((createSelectionOptions rng si shown fake optionCount).length : Int) = optionCount ∧
    (createSelectionOptions rng si shown fake optionCount).Nodup ∧
    (createSelectionOptions rng si shown fake optionCount).count fake = 1 ∧
    ∀ x ∈ createSelectionOptions rng si shown fake optionCount,
      x ≠ fake → x ∈ shown := by
  have hperm1 : List.Perm (rng.shuf si shown) shown := rng.shuf_perm si shown
  set shuffled := rng.shuf si shown with hsh
  have hlen1 : shuffled.length = shown.length := hperm1.length_eq
  have hnd1 : shuffled.Nodup := (hperm1.nodup_iff).2 hnd
  have hnotneg : ¬ optionCount - 1 < 0 := by omega
  have hreal : jsSliceEnd shuffled (optionCount - 1) = shuffled.take (optionCount - 1).toNat := by
    simp [jsSliceEnd, hnotneg]
  set realNumbers := jsSliceEnd shuffled (optionCount - 1) with hrn
  have hsub : List.Sublist realNumbers shuffled := by
    rw [hreal]; exact List.take_sublist _ _
  have hndr : realNumbers.Nodup := hsub.nodup hnd1
  have hmemr : ∀ x ∈ realNumbers, x ∈ shown := fun x hx =>
    (hperm1.mem_iff).1 (hsub.subset hx)
  have hfaker : fake ∉ realNumbers := fun hx => hfake (hmemr fake hx)
  have hlenr : realNumbers.length = (optionCount - 1).toNat := by
    rw [hreal, List.length_take]
    have : (optionCount - 1).toNat ≤ shuffled.length := by
      rw [hlen1]; omega
    omega
  have hperm2 : List.Perm (rng.shuf (si + 1) (realNumbers ++ [fake])) (realNumbers ++ [fake]) :=
    rng.shuf_perm (si + 1) (realNumbers ++ [fake])
  have hres : createSelectionOptions rng si shown fake optionCount
      = rng.shuf (si + 1) (realNumbers ++ [fake]) := rfl
  rw [hres]
  refine ⟨?_, ?_, ?_, ?_⟩
  · rw [hperm2.length_eq]
    simp only [List.length_append, List.length_singleton, hlenr]
    omega
  · rw [hperm2.nodup_iff]
    simp [List.nodup_append, hndr, hfaker]
  · rw [hperm2.count_eq]
    rw [List.count_append]
    rw [List.count_eq_zero.2 hfaker]
    simp
  · intro x hx hne
    have hx' : x ∈ realNumbers ++ [fake] := (hperm2.mem_iff).1 hx
    rcases List.mem_append.1 hx' with hx' | hx'
    · exact hmemr x hx'
    · exact absurd (List.mem_singleton.1 hx') hne

theorem prevDay_ne (d : Date3) : prevDay d ≠ d := by
  unfold prevDay
  split
  · intro h
    have := congrArg Date3.day h
    simp at this
    omega
  · split
    · intro h
      have := congrArg Date3.month h
      simp_all
    · intro h
      have := congrArg Date3.month h
      simp at this
      omega

theorem getPlayer_of_none (now : Nat) (st : Store) (fid : Nat)
    (h : lookupK fid st.players = none) :
    getPlayer now st fid
      = (freshPlayer fid, { st with players := setK fid (freshPlayer fid) st.players }) := by
  unfold getPlayer
  rw [h]

theorem getPlayer_of_expired (now : Nat) (st : Store) (fid : Nat) (p : PlayerData)
    (h : lookupK fid st.players = some p)
    (he : isCooldownExpired now p.cooldownEndsAt = true) :
    getPlayer now st fid
      = (resetCooldown p, { st with players := setK fid (resetCooldown p) st.players }) := by
  unfold getPlayer
  rw [h]
  simp [he, resetCooldown]

theorem getPlayer_of_live (now : Nat) (st : Store) (fid : Nat) (p : PlayerData)
    (h : lookupK fid st.players = some p)
    (he : isCooldownExpired now p.cooldownEndsAt = false) :
    getPlayer now st fid = (p, st) := by
  unfold getPlayer
  rw [h]
  simp [he]

theorem getPlayer_players_lookup (now : Nat) (st : Store) (fid : Nat) :
    lookupK fid ((getPlayer now st fid).2).players = some (getPlayer now st fid).1 := by
  rcases hl : lookupK fid st.players with _ | p
  · rw [getPlayer_of_none now st fid hl]
    simp [lookupK_setK_self]
  · rcases he : isCooldownExpired now p.cooldownEndsAt with _ | _
    · rw [getPlayer_of_live now st fid p hl he]
      simpa using hl
    · rw [getPlayer_of_expired now st fid p hl he]
      simp [lookupK_setK_self]

theorem getPlayer_sessions (now : Nat) (st : Store) (fid : Nat) :
    ((getPlayer now st fid).2).sessions = st.sessions := by
  rcases hl : lookupK fid st.players with _ | p
  · rw [getPlayer_of_none now st fid hl]
  · rcases he : isCooldownExpired now p.cooldownEndsAt with _ | _
    · rw [getPlayer_of_live now st fid p hl he]
    · rw [getPlayer_of_expired now st fid p hl he]

theorem resetCooldown_expired (now : Nat) (p : PlayerData) :
    isCooldownExpired now (resetCooldown p).cooldownEndsAt = true := by
  simp [resetCooldown, isCooldownExpired]

theorem resetCooldown_idem (p : PlayerData) :
    resetCooldown (resetCooldown p) = resetCooldown p := by
  simp [resetCooldown]

theorem getPlayer_idem (now : Nat) (st : Store) (fid : Nat) :
    getPlayer now ((getPlayer now st fid).2) fid = getPlayer now st fid := by
  rcases hl : lookupK fid st.players with _ | p
  · rw [getPlayer_of_none now st fid hl]
    have hfresh : freshPlayer fid = resetCooldown (freshPlayer fid) := by
      simp [freshPlayer, resetCooldown]
    rw [getPlayer_of_expired now _ fid (freshPlayer fid) (by simp [lookupK_setK_self])
      (by simp [freshPlayer, isCooldownExpired])]
    simp [← hfresh, setK_setK]
  · rcases he : isCooldownExpired now p.cooldownEndsAt with _ | _
    · rw [getPlayer_of_live now st fid p hl he]
      rw [getPlayer_of_live now st fid p hl he]
    · rw [getPlayer_of_expired now st fid p hl he]
      rw [getPlayer_of_expired now _ fid (resetCooldown p) (by simp [lookupK_setK_self])
        (resetCooldown_expired now p)]
      simp [resetCooldown_idem, setK_setK]

theorem updatePlayer_sessions (now : Nat) (st : Store) (fid : Nat)
    (upd : PlayerData → PlayerData) :
    ((updatePlayer now st fid upd).2).sessions = st.sessions := by
  unfold updatePlayer
  simp [getPlayer_sessions]

theorem updatePlayer_lookup (now : Nat) (st : Store) (fid : Nat)
    (upd : PlayerData → PlayerData) :
    lookupK fid ((updatePlayer now st fid upd).2).players
      = some (upd (getPlayer now st fid).1) := by
  unfold updatePlayer
  simp [lookupK_setK_self]

theorem startSessionCooldown_sessions (now : Nat) (st : Store) (fid : Nat) :
    (startSessionCooldown now st fid).sessions = st.sessions := by
  unfold startSessionCooldown
  simp [updatePlayer_sessions, getPlayer_sessions]

theorem startSessionCooldown_lookup (now : Nat) (st : Store) (fid : Nat) :
    lookupK fid (startSessionCooldown now st fid).players
      = some { (getPlayer now st fid).1 with
                 sessionsInCooldown := (getPlayer now st fid).1.sessionsInCooldown + 1,
                 lastPlayedAt := some now,
                 cooldownEndsAt := some (now + COOLDOWN_MINUTES * 60 * 1000) } := by
  unfold startSessionCooldown
  rw [updatePlayer_lookup]
  rw [getPlayer_idem]

theorem recordSessionCompletion_sessions (now : Nat) (today : Date3) (st : Store)
    (fid : Nat) (perfect : Bool) :
    (recordSessionCompletion now today st fid perfect).sessions = st.sessions := by
  unfold recordSessionCompletion
  simp [updatePlayer_sessions, getPlayer_sessions]

theorem getPlayerStats_sessions (now : Nat) (st : Store) (fid : Nat) :
    ((getPlayerStats now st fid).2).sessions = st.sessions := by
  unfold getPlayerStats
  simp [getPlayer_sessions]

theorem updateSession_players (st : Store) (sessionId : String)
    (upd : GameSession → GameSession) :
    (updateSession st sessionId upd).players = st.players := by
  unfold updateSession
  rcases lookupK sessionId st.sessions with _ | s <;> simp

theorem updateSession_lookup (st : Store) (sessionId : String) (s : GameSession)
    (upd : GameSession → GameSession) (h : lookupK sessionId st.sessions = some s) :
    lookupK sessionId (updateSession st sessionId upd).sessions = some (upd s) := by
  unfold updateSession
  rw [h]
  simp [lookupK_setK_self]

theorem createSession_players (st : Store) (s : GameSession) :
    (createSession st s).players = st.players := rfl

theorem isCooldownExpired_of_lt (now e : Nat) (h : now < e) :
    isCooldownExpired now (some e) = false := by
  simp [isCooldownExpired]
  omega

theorem isCooldownExpired_of_le (now e : Nat) (h : e ≤ now) :
    isCooldownExpired now (some e) = true := by
  simp [isCooldownExpired, h]

theorem canStartSession_eq (now : Nat) (st : Store) (fid : Nat) :
    canStartSession now st fid
      = if MAX_SESSIONS_PER_COOLDOWN ≤ (getPlayer now st fid).1.sessionsInCooldown ∧
            ¬ isCooldownExpired now (getPlayer now st fid).1.cooldownEndsAt = true then
          (⟨false, (getPlayer now st fid).1.cooldownEndsAt⟩, (getPlayer now st fid).2)
        else (⟨true, none⟩, (getPlayer now st fid).2) := rfl

/-- C10: `getRoundConfig` is total over the integers — for
`1 ≤ round ≤ TOTAL_ROUNDS` it returns entry `round - 1` of
`ROUND_CONFIG` (so the indexing itself is defined, never `undefined`),
and for every other integer it falls back to round 1's configuration. -/
theorem round_config_total_spec (round : Int) :
    (1 ≤ round → round ≤ (TOTAL_ROUNDS : Int) →
      ROUND_CONFIG[(round - 1).toNat]? = some (getRoundConfig round)) ∧
    ((round < 1 ∨ (TOTAL_ROUNDS : Int) < round) → getRoundConfig round = roundConfig1) := by
  constructor
  · intro h1 h2
    have h3 : round = 1 ∨ round = 2 ∨ round = 3 := by
      simp [TOTAL_ROUNDS] at h2
      omega
    rcases h3 with rfl | rfl | rfl <;> decide
  · intro h
    rcases h with h | h
    · have h3 : round - 1 < 0 := by omega
      unfold getRoundConfig jsIndex
      rw [if_pos h3]
    · have h3 : ¬ round - 1 < 0 := by
        simp [TOTAL_ROUNDS] at h
        omega
      have h4 : ROUND_CONFIG.length ≤ (round - 1).toNat := by
        simp [ROUND_CONFIG, roundConfig1, TOTAL_ROUNDS] at h ⊢
        omega
      unfold getRoundConfig jsIndex
      rw [if_neg h3, List.getElem?_eq_none h4]

theorem round_config_total_spec_witness :
    (ROUND_CONFIG[((2 : Int) - 1).toNat]? = some (getRoundConfig 2)) ∧
    getRoundConfig 0 = roundConfig1 ∧ getRoundConfig 4 = roundConfig1 :=
  ⟨(round_config_total_spec 2).1 (by decide) (by decide),
   (round_config_total_spec 0).2 (Or.inl (by decide)),
   (round_config_total_spec 4).2 (Or.inr (by decide))⟩

/-- C6: engaging the gate at time `t` stores
`cooldownEndsAt = t + cooldownWindow` and bumps the attempt counter;
`canStartSession` observed at `t` then denies and reports that end time,
and any observation at or after the end time lazily resets the window
(counter 0, end time cleared) and allows again. -/
theorem cooldown_gate_spec (st : Store) (fid t t' : Nat) :
    (∃ q, lookupK fid (startSessionCooldown t st fid).players = some q ∧
       q.sessionsInCooldown = (getPlayer t st fid).1.sessionsInCooldown + 1 ∧
       q.cooldownEndsAt = some (t + COOLDOWN_MINUTES * 60 * 1000)) ∧
    (canStartSession t (startSessionCooldown t st fid) fid).1.allowed = false ∧
    (canStartSession t (startSessionCooldown t st fid) fid).1.cooldownEndsAt
      = some (t + COOLDOWN_MINUTES * 60 * 1000) ∧
    (t + COOLDOWN_MINUTES * 60 * 1000 ≤ t' →
      (getPlayer t' (startSessionCooldown t st fid) fid).1.sessionsInCooldown = 0 ∧
      (getPlayer t' (startSessionCooldown t st fid) fid).1.cooldownEndsAt = none ∧
      (canStartSession t' (startSessionCooldown t st fid) fid).1.allowed = true) := by
  have hE : t < t + COOLDOWN_MINUTES * 60 * 1000 := by
    simp [COOLDOWN_MINUTES]
  have hq := startSessionCooldown_lookup t st fid
  set E := t + COOLDOWN_MINUTES * 60 * 1000 with hEdef
  set q : PlayerData :=
    { (getPlayer t st fid).1 with
        sessionsInCooldown := (getPlayer t st fid).1.sessionsInCooldown + 1,
        lastPlayedAt := some t,
        cooldownEndsAt := some E } with hqdef
  have hgp1 : getPlayer t (startSessionCooldown t st fid) fid = (q, startSessionCooldown t st fid) :=
    getPlayer_of_live t _ fid q hq (by simp [hqdef, isCooldownExpired_of_lt t E hE])
  refine ⟨⟨q, hq, by simp [hqdef], by simp [hqdef]⟩, ?_, ?_, ?_⟩
  · rw [canStartSession_eq, hgp1]
    simp [hqdef, MAX_SESSIONS_PER_COOLDOWN, isCooldownExpired_of_lt t E hE]
  · rw [canStartSession_eq, hgp1]
    simp [hqdef, MAX_SESSIONS_PER_COOLDOWN, isCooldownExpired_of_lt t E hE]
  · intro ht'
    have hexp : isCooldownExpired t' q.cooldownEndsAt = true := by
      simp [hqdef, isCooldownExpired_of_le t' E ht']
    have hgp2 : getPlayer t' (startSessionCooldown t st fid) fid
        = (resetCooldown q,
           { startSessionCooldown t st fid with
               players := setK fid (resetCooldown q) (startSessionCooldown t st fid).players }) :=
      getPlayer_of_expired t' _ fid q hq hexp
    refine ⟨by rw [hgp2]; simp [resetCooldown], by rw [hgp2]; simp [resetCooldown], ?_⟩
    rw [canStartSession_eq, hgp2]
    simp [resetCooldown, MAX_SESSIONS_PER_COOLDOWN]

theorem cooldown_gate_spec_witness :
    (canStartSession 0 (startSessionCooldown 0 ⟨[], []⟩ 7) 7).1.allowed = false ∧
    (canStartSession 300000 (startSessionCooldown 0 ⟨[], []⟩ 7) 7).1.allowed = true :=
  ⟨(cooldown_gate_spec ⟨[], []⟩ 7 0 300000).2.1,
   ((cooldown_gate_spec ⟨[], []⟩ 7 0 300000).2.2.2 (by decide)).2.2⟩

theorem recordSessionCompletion_lookup (now : Nat) (today : Date3) (st : Store)
    (fid : Nat) (perfect : Bool) :
    lookupK fid (recordSessionCompletion now today st fid perfect).players
      = some
        (let p := (getPlayer now st fid).1
         let q1 := if perfect then { p with perfectSessions := p.perfectSessions + 1 } else p
         let q2 :=
           match p.lastStreakDate with
           | some l =>
             if l = prevDay today then { q1 with currentStreak := p.currentStreak + 1 }
             else if l ≠ today then { q1 with currentStreak := 1 }
             else q1
           | none => { q1 with currentStreak := 1 }
         { q2 with lastStreakDate := some today }) := by
  unfold recordSessionCompletion
  rw [updatePlayer_lookup]
  rw [getPlayer_idem]

/-- C8: the streak update applied on terminal completion stores exactly
`streakUpdate today lastStreakDate currentStreak` — a pure function of
those three values — which increments when the last streak date is the
UTC day before today, is unchanged when it is today, resets to 1
otherwise (including a missing date); `lastStreakDate` is always set to
today. -/
theorem streak_update_spec (now : Nat) (today : Date3) (st : Store) (fid : Nat)
    (perfect : Bool) :
    (∃ q, lookupK fid (recordSessionCompletion now today st fid perfect).players = some q ∧
       q.currentStreak
         = streakUpdate today ((getPlayer now st fid).1).lastStreakDate
             ((getPlayer now st fid).1).currentStreak ∧
       q.lastStreakDate = some today) ∧
    (∀ c, streakUpdate today (some (prevDay today)) c = c + 1) ∧
    (∀ c, streakUpdate today (some today) c = c) ∧
    (∀ l c, l ≠ prevDay today → l ≠ today → streakUpdate today (some l) c = 1) ∧
    (∀ c, streakUpdate today none c = 1) := by
  refine ⟨?_, ?_, ?_, ?_, ?_⟩
  · refine ⟨_, recordSessionCompletion_lookup now today st fid perfect, ?_, ?_⟩
    · set p := (getPlayer now st fid).1 with hp
      rcases hls : p.lastStreakDate with _ | l
      · cases perfect <;> simp [streakUpdate, hls]
      · by_cases h1 : l = prevDay today
        · cases perfect <;> simp [streakUpdate, hls, h1]
        · by_cases h2 : l = today
          · cases perfect <;>
              simp [streakUpdate, hls, h1, h2, (prevDay_ne today).symm]
          · cases perfect <;> simp [streakUpdate, hls, h1, h2]
    · set p := (getPlayer now st fid).1 with hp
      rcases hls : p.lastStreakDate with _ | l
      · cases perfect <;> simp [hls]
      · by_cases h1 : l = prevDay today <;> by_cases h2 : l = today <;>
          cases perfect <;> simp [hls, h1, h2]
  · intro c
    simp [streakUpdate]
  · intro c
    simp [streakUpdate, (prevDay_ne today).symm]
  · intro l c h1 h2
    simp [streakUpdate, h1, h2]
  · intro c
    simp [streakUpdate]

theorem streak_update_spec_witness :
    (∃ q, lookupK 7 (recordSessionCompletion 0 ⟨2024, 0, 15⟩ ⟨[], []⟩ 7 true).players
        = some q ∧
      q.currentStreak
        = streakUpdate ⟨2024, 0, 15⟩ ((getPlayer 0 ⟨[], []⟩ 7).1).lastStreakDate
            ((getPlayer 0 ⟨[], []⟩ 7).1).currentStreak ∧
      q.lastStreakDate = some ⟨2024, 0, 15⟩) ∧
    streakUpdate ⟨2024, 0, 15⟩ (some (prevDay ⟨2024, 0, 15⟩)) 3 = 4 ∧
    streakUpdate ⟨2024, 0, 15⟩ (some ⟨2024, 0, 15⟩) 3 = 3 ∧
    streakUpdate ⟨2024, 0, 15⟩ (some ⟨2024, 0, 1⟩) 3 = 1 ∧
    streakUpdate ⟨2024, 0, 15⟩ none 3 = 1 :=
  ⟨(streak_update_spec 0 ⟨2024, 0, 15⟩ ⟨[], []⟩ 7 true).1,
   (streak_update_spec 0 ⟨2024, 0, 15⟩ ⟨[], []⟩ 7 true).2.1 3,
   (streak_update_spec 0 ⟨2024, 0, 15⟩ ⟨[], []⟩ 7 true).2.2.1 3,
   (streak_update_spec 0 ⟨2024, 0, 15⟩ ⟨[], []⟩ 7 true).2.2.2.1 ⟨2024, 0, 1⟩ 3
     (by decide) (by decide),
   (streak_update_spec 0 ⟨2024, 0, 15⟩ ⟨[], []⟩ 7 true).2.2.2.2 3⟩

theorem resetCooldown_eq_self (p : PlayerData) (h1 : p.sessionsInCooldown = 0)
    (h2 : p.cooldownEndsAt = none) : resetCooldown p = p := by
  cases p
  simp_all [resetCooldown]

theorem startSession_of_allowed (t : Nat) (rng : Rng) (fuel : Nat) (n sid : String)
    (fid : Nat) (st : Store)
    (hallow : (canStartSession t st fid).1.allowed = true) :
    startSession t rng fuel n sid fid st
      = match generateNumbers rng (getRoundConfig 1).numberCount fuel with
        | none => (.internal, (canStartSession t st fid).2)
        | some (shown, di) =>
          match generateFakeNumber rng shown fuel di with
          | none => (.internal, (canStartSession t st fid).2)
          | some (fake, _) =>
            (.ok sid 1 shown ((getRoundConfig 1).displayTime * 1000) n,
             startSessionCooldown t
               (createSession (canStartSession t st fid).2
                 ⟨sid, fid, 1, shown, fake,
                  createSelectionOptions rng 0 shown fake ((getRoundConfig 1).optionCount : Int),
                  n, t, t, (getRoundConfig 1).displayTime, 0, false, 0, 0⟩) fid) := by
  unfold startSession
  simp only [hallow, if_true]

theorem startSession_of_denied (t : Nat) (rng : Rng) (fuel : Nat) (n sid : String)
    (fid : Nat) (st : Store)
    (hallow : (canStartSession t st fid).1.allowed = false) :
    startSession t rng fuel n sid fid st
      = (.rateLimited (canStartSession t st fid).1.cooldownEndsAt,
         (canStartSession t st fid).2) := by
  unfold startSession
  simp only [hallow, if_false, Bool.false_eq_true]

/-- C2: for a player whose cooldown is absent or expired, a successful
`startSession` immediately engages the gate (attempt counter becomes 1,
`cooldownEndsAt = t + cooldownWindow`), so a second `startSession` by
the same player before the window elapses is rate-limited, carrying that
end time. -/
theorem start_engages_cooldown (t t' : Nat) (rng rng' : Rng) (fuel fuel' : Nat)
    (n n' sid sid' : String) (fid : Nat) (st : Store)
    (hcd : ∀ p, lookupK fid st.players = some p →
      isCooldownExpired t p.cooldownEndsAt = true)
    (res : StartResult) (st1 : Store)
    (heq : startSession t rng fuel n sid fid st = (res, st1))
    (hok : res ≠ .internal) :
    (∃ q, lookupK fid st1.players = some q ∧ q.sessionsInCooldown = 1 ∧
       q.cooldownEndsAt = some (t + COOLDOWN_MINUTES * 60 * 1000)) ∧
    (t ≤ t' → t' < t + COOLDOWN_MINUTES * 60 * 1000 →
      (startSession t' rng' fuel' n' sid' fid st1).1
        = .rateLimited (some (t + COOLDOWN_MINUTES * 60 * 1000))) := by
  have h0 : (getPlayer t st fid).1.sessionsInCooldown = 0 ∧
      (getPlayer t st fid).1.cooldownEndsAt = none := by
    rcases hl : lookupK fid st.players with _ | p
    · rw [getPlayer_of_none t st fid hl]
      simp [freshPlayer]
    · rw [getPlayer_of_expired t st fid p hl (hcd p hl)]
      simp [resetCooldown]
  have hallow : canStartSession t st fid = (⟨true, none⟩, (getPlayer t st fid).2) := by
    rw [canStartSession_eq]
    rw [if_neg]
    intro hcontra
    rw [h0.1] at hcontra
    simp [MAX_SESSIONS_PER_COOLDOWN] at hcontra
  rw [startSession_of_allowed t rng fuel n sid fid st (by rw [hallow])] at heq
  rcases hg1 : generateNumbers rng (getRoundConfig 1).numberCount fuel with _ | ⟨shown, di⟩
  · simp only [hg1, Prod.mk.injEq] at heq
    exact absurd heq.1.symm hok
  simp only [hg1] at heq
  rcases hg2 : generateFakeNumber rng shown fuel di with _ | ⟨fake, di2⟩
  · simp only [hg2, Prod.mk.injEq] at heq
    exact absurd heq.1.symm hok
  simp only [hg2, Prod.mk.injEq] at heq
  obtain ⟨hres, hst1⟩ := heq
  set sess : GameSession :=
    ⟨sid, fid, 1, shown, fake,
     createSelectionOptions rng 0 shown fake ((getRoundConfig 1).optionCount : Int),
     n, t, t, (getRoundConfig 1).displayTime, 0, false, 0, 0⟩ with hsess
  set stc : Store := createSession (canStartSession t st fid).2 sess with hstc
  have hlkc : lookupK fid stc.players = some (getPlayer t st fid).1 := by
    rw [hstc, createSession_players, hallow]
    exact getPlayer_players_lookup t st fid
  have hgpc : getPlayer t stc fid = (resetCooldown (getPlayer t st fid).1,
      { stc with players := setK fid (resetCooldown (getPlayer t st fid).1) stc.players }) :=
    getPlayer_of_expired t stc fid _ hlkc (by rw [h0.2]; rfl)
  have hrc : resetCooldown (getPlayer t st fid).1 = (getPlayer t st fid).1 :=
    resetCooldown_eq_self _ h0.1 h0.2
  set E := t + COOLDOWN_MINUTES * 60 * 1000 with hE
  set q : PlayerData :=
    { (getPlayer t st fid).1 with
        sessionsInCooldown := 1, lastPlayedAt := some t, cooldownEndsAt := some E } with hq
  have hlk1 : lookupK fid st1.players = some q := by
    rw [← hst1]
    have := startSessionCooldown_lookup t stc fid
    rw [hgpc] at this
    simp only [hrc] at this
    rw [this, hq, h0.1]
  refine ⟨⟨q, hlk1, by simp [hq], by simp [hq]⟩, ?_⟩
  intro ht1 ht2
  have hgp1 : getPlayer t' st1 fid = (q, st1) :=
    getPlayer_of_live t' st1 fid q hlk1 (by rw [hq]; exact isCooldownExpired_of_lt t' E ht2)
  have hdenied : canStartSession t' st1 fid = (⟨false, some E⟩, st1) := by
    rw [canStartSession_eq, hgp1]
    have hcond : MAX_SESSIONS_PER_COOLDOWN ≤ q.sessionsInCooldown ∧
        ¬ isCooldownExpired t' q.cooldownEndsAt = true := by
      refine ⟨?_, ?_⟩
      · rw [show q.sessionsInCooldown = 1 from by simp [hq]]
        simp [MAX_SESSIONS_PER_COOLDOWN]
      · rw [show q.cooldownEndsAt = some E from by simp [hq]]
        rw [isCooldownExpired_of_lt t' E ht2]
        simp
    rw [if_pos hcond]
  rw [startSession_of_denied t' rng' fuel' n' sid' fid st1 (by rw [hdenied])]
  rw [hdenied]

theorem start_engages_cooldown_witness :
    (∃ q, lookupK 7 ((startSession 0 rngId 20 "n1" "s1" 7 ⟨[], []⟩).2).players = some q ∧
       q.sessionsInCooldown = 1 ∧
       q.cooldownEndsAt = some (0 + COOLDOWN_MINUTES * 60 * 1000)) ∧
    (startSession 1 rngId 20 "n2" "s2" 7
        (startSession 0 rngId 20 "n1" "s1" 7 ⟨[], []⟩).2).1
      = StartResult.rateLimited (some (0 + COOLDOWN_MINUTES * 60 * 1000)) := by
  have h := start_engages_cooldown 0 1 rngId rngId 20 20 "n1" "n2" "s1" "s2" 7 ⟨[], []⟩
    (fun p hp => Option.noConfusion hp)
    (startSession 0 rngId 20 "n1" "s1" 7 ⟨[], []⟩).1
    (startSession 0 rngId 20 "n1" "s1" 7 ⟨[], []⟩).2
    rfl (by decide)
  exact ⟨h.1, h.2 (by decide) (by decide)⟩

/-- C1 (amended): a generated round — `numberCount` distinct shown
numbers, a fake number rejected against them, and the selection options
— satisfies the distinctness/membership contract, additionally assuming
`1 ≤ optionCount` (the claim's stated preconditions alone admit
`optionCount = 0`, where the JavaScript `slice(0, -1)` keeps all but one
shown number and the options cannot have length 0). -/
theorem round_generation_spec (rng : Rng) (si fuel fuel2 : Nat) (numberCount : Nat)
    (optionCount : Int) (shown : List Nat) (di fake di2 : Nat)
    (hnc1 : 1 ≤ numberCount) (hnc2 : numberCount ≤ 900)
    (hoc1 : 1 ≤ optionCount) (hoc2 : optionCount - 1 ≤ (numberCount : Int))
    (hg1 : generateNumbers rng numberCount fuel = some (shown, di))
    (hg2 : generateFakeNumber rng shown fuel2 di = some (fake, di2)) :
    shown.length = numberCount ∧ shown.Nodup ∧ (∀ x ∈ shown, 100 ≤ x ∧ x ≤ 999) ∧
    (100 ≤ fake ∧ fake ≤ 999) ∧ fake ∉ shown ∧
    ((createSelectionOptions rng si shown fake optionCount).length : Int) = optionCount ∧
    (createSelectionOptions rng si shown fake optionCount).Nodup ∧
    (createSelectionOptions rng si shown fake optionCount).count fake = 1 ∧
    (∀ x ∈ createSelectionOptions rng si shown fake optionCount, x ≠ fake → x ∈ shown) := by
  obtain ⟨hlen, hnd, hrange⟩ := generateNumbers_spec rng numberCount fuel shown di hg1
  obtain ⟨hfr, hfm⟩ := generateFakeNumber_spec rng shown fuel2 di fake di2 hg2
  have hopts := createSelectionOptions_spec rng si shown fake optionCount hnd hfm hoc1
    (by rw [hlen]; exact hoc2)
  exact ⟨hlen, hnd, hrange, hfr, hfm, hopts.1, hopts.2.1, hopts.2.2.1, hopts.2.2.2⟩

theorem round_generation_spec_witness :
    [100, 101, 102, 103, 104].length = 5 ∧ [100, 101, 102, 103, 104].Nodup ∧
    (∀ x ∈ [100, 101, 102, 103, 104], 100 ≤ x ∧ x ≤ 999) ∧
    (100 ≤ 105 ∧ 105 ≤ 999) ∧ 105 ∉ [100, 101, 102, 103, 104] ∧
    ((createSelectionOptions rngId 0 [100, 101, 102, 103, 104] 105 3).length : Int) = 3 ∧
    (createSelectionOptions rngId 0 [100, 101, 102, 103, 104] 105 3).Nodup ∧
    (createSelectionOptions rngId 0 [100, 101, 102, 103, 104] 105 3).count 105 = 1 ∧
    (∀ x ∈ createSelectionOptions rngId 0 [100, 101, 102, 103, 104] 105 3,
      x ≠ 105 → x ∈ [100, 101, 102, 103, 104]) :=
  round_generation_spec rngId 0 20 20 5 3 [100, 101, 102, 103, 104] 5 105 6
    (by decide) (by decide) (by decide) (by decide) (by decide) (by decide)

/-- C1 counterexample: at `optionCount = 0` every precondition stated by
the claim holds (`1 ≤ numberCount ≤ 900` and
`optionCount - 1 ≤ numberCount`), yet the selection options do not have
length `optionCount`: the second `slice` argument is `-1`, so the result
is `[fakeNumber]` of length 1. -/
theorem round_generation_claim_cex :
    generateNumbers rngId 1 10 = some ([100], 1) ∧
    generateFakeNumber rngId [100] 10 1 = some (101, 2) ∧
    (1 ≤ (1 : Int) ∧ (1 : Int) ≤ 900) ∧ ((0 : Int) - 1 ≤ (1 : Int)) ∧
    createSelectionOptions rngId 0 [100] 101 0 = [101] ∧
    ¬ ((createSelectionOptions rngId 0 [100] 101 0).length : Int) = 0 := by decide

theorem postSubmit_eq_missing (now : Nat) (today : Date3) (rng : Rng) (fuel : Nat)
    (freshNonce : String) (req : SubmitReq) (st : Store)
    (h : req.fid = 0 ∨ req.sessionId = "" ∨ req.selectedNumber = none ∨ req.nonce = "") :
    postSubmit now today rng fuel freshNonce req st = (.err .missingFields, st) := by
  unfold postSubmit
  rw [if_pos h]

theorem postSubmit_eq_notFound (now : Nat) (today : Date3) (rng : Rng) (fuel : Nat)
    (freshNonce : String) (req : SubmitReq) (st : Store)
    (hwf : ¬ (req.fid = 0 ∨ req.sessionId = "" ∨ req.selectedNumber = none ∨ req.nonce = ""))
    (hlk : lookupK req.sessionId st.sessions = none) :
    postSubmit now today rng fuel freshNonce req st = (.err .notFound, st) := by
  unfold postSubmit
  rw [if_neg hwf]
  simp only [hlk]

theorem postSubmit_eq_forbidden (now : Nat) (today : Date3) (rng : Rng) (fuel : Nat)
    (freshNonce : String) (req : SubmitReq) (st : Store) (s : GameSession)
    (hwf : ¬ (req.fid = 0 ∨ req.sessionId = "" ∨ req.selectedNumber = none ∨ req.nonce = ""))
    (hs : lookupK req.sessionId st.sessions = some s)
    (hfid : s.fid ≠ req.fid) :
    postSubmit now today rng fuel freshNonce req st = (.err .forbidden, st) := by
  unfold postSubmit
  rw [if_neg hwf]
  simp only [hs]
  rw [if_pos hfid]

theorem postSubmit_eq_invalidNonce (now : Nat) (today : Date3) (rng : Rng) (fuel : Nat)
    (freshNonce : String) (req : SubmitReq) (st : Store) (s : GameSession)
    (hwf : ¬ (req.fid = 0 ∨ req.sessionId = "" ∨ req.selectedNumber = none ∨ req.nonce = ""))
    (hs : lookupK req.sessionId st.sessions = some s)
    (hfid : s.fid = req.fid) (hn : s.nonce ≠ req.nonce) :
    postSubmit now today rng fuel freshNonce req st = (.err .invalidNonce, st) := by
  unfold postSubmit
  rw [if_neg hwf]
  simp only [hs]
  rw [if_neg (by simp [hfid])]
  rw [if_pos hn]

theorem postSubmit_eq_alreadyCompleted (now : Nat) (today : Date3) (rng : Rng) (fuel : Nat)
    (freshNonce : String) (req : SubmitReq) (st : Store) (s : GameSession)
    (hwf : ¬ (req.fid = 0 ∨ req.sessionId = "" ∨ req.selectedNumber = none ∨ req.nonce = ""))
    (hs : lookupK req.sessionId st.sessions = some s)
    (hfid : s.fid = req.fid) (hn : s.nonce = req.nonce) (hcomp : s.completed = true) :
    postSubmit now today rng fuel freshNonce req st = (.err .alreadyCompleted, st) := by
  unfold postSubmit
  rw [if_neg hwf]
  simp only [hs]
  rw [if_neg (by simp [hfid])]
  rw [if_neg (by simp [hn])]
  rw [if_pos hcomp]

theorem postSubmit_eq_terminal (now : Nat) (today : Date3) (rng : Rng) (fuel : Nat)
    (freshNonce : String) (req : SubmitReq) (st : Store) (s : GameSession)
    (hwf : ¬ (req.fid = 0 ∨ req.sessionId = "" ∨ req.selectedNumber = none ∨ req.nonce = ""))
    (hs : lookupK req.sessionId st.sessions = some s)
    (hfid : s.fid = req.fid) (hn : s.nonce = req.nonce) (hcomp : s.completed = false)
    (hr : TOTAL_ROUNDS ≤ s.round) :
    postSubmit now today rng fuel freshNonce req st
      = (.terminal (isCorrectB req s) true (nextTokens req s) (nextCorrect req s)
           (nextWrong req s) ((now - s.startedAt) / 1000) (nextWrong req s = 0),
         (getPlayerStats now
           (recordSessionCompletion now today
             (updateSession st req.sessionId (fun t =>
               { t with completed := true, tokensEarned := nextTokens req s,
                        correctAnswers := nextCorrect req s,
                        wrongAnswers := nextWrong req s }))
             req.fid (nextWrong req s = 0))
           req.fid).2) := by
  unfold postSubmit
  rw [if_neg hwf]
  simp only [hs]
  rw [if_neg (by simp [hfid])]
  rw [if_neg (by simp [hn])]
  rw [if_neg (by simp [hcomp])]
  rw [if_pos hr]
  rfl

theorem postSubmit_eq_next (now : Nat) (today : Date3) (rng : Rng) (fuel : Nat)
    (freshNonce : String) (req : SubmitReq) (st : Store) (s : GameSession)
    (shown : List Nat) (di fake di2 : Nat)
    (hwf : ¬ (req.fid = 0 ∨ req.sessionId = "" ∨ req.selectedNumber = none ∨ req.nonce = ""))
    (hs : lookupK req.sessionId st.sessions = some s)
    (hfid : s.fid = req.fid) (hn : s.nonce = req.nonce) (hcomp : s.completed = false)
    (hr : ¬ TOTAL_ROUNDS ≤ s.round)
    (hg1 : generateNumbers rng (getRoundConfig ((s.round + 1 : Nat) : Int)).numberCount fuel
      = some (shown, di))
    (hg2 : generateFakeNumber rng shown fuel di = some (fake, di2)) :
    postSubmit now today rng fuel freshNonce req st
      = (.next (isCorrectB req s) (if isCorrectB req s then TOKENS_PER_CORRECT else 0)
           (s.round + 1) shown ((getRoundConfig ((s.round + 1 : Nat) : Int)).displayTime * 1000)
           freshNonce,
         updateSession st req.sessionId (fun t =>
           { t with round := s.round + 1, shownNumbers := shown, fakeNumber := fake,
                    selectionOptions := createSelectionOptions rng 0 shown fake
                      ((getRoundConfig ((s.round + 1 : Nat) : Int)).optionCount : Int),
                    nonce := freshNonce, roundStartedAt := now,
                    displayTime := (getRoundConfig ((s.round + 1 : Nat) : Int)).displayTime,
                    tokensEarned := nextTokens req s,
                    correctAnswers := nextCorrect req s,
                    wrongAnswers := nextWrong req s })) := by
  unfold postSubmit
  rw [if_neg hwf]
  simp only [hs]
  rw [if_neg (by simp [hfid])]
  rw [if_neg (by simp [hn])]
  rw [if_neg (by simp [hcomp])]
  rw [if_neg hr]
  simp only [hg1, hg2]
  rfl

theorem postSubmit_eq_genfail1 (now : Nat) (today : Date3) (rng : Rng) (fuel : Nat)
    (freshNonce : String) (req : SubmitReq) (st : Store) (s : GameSession)
    (hwf : ¬ (req.fid = 0 ∨ req.sessionId = "" ∨ req.selectedNumber = none ∨ req.nonce = ""))
    (hs : lookupK req.sessionId st.sessions = some s)
    (hfid : s.fid = req.fid) (hn : s.nonce = req.nonce) (hcomp : s.completed = false)
    (hr : ¬ TOTAL_ROUNDS ≤ s.round)
    (hg1 : generateNumbers rng (getRoundConfig ((s.round + 1 : Nat) : Int)).numberCount fuel
      = none) :
    postSubmit now today rng fuel freshNonce req st = (.err .internal, st) := by
  unfold postSubmit
  rw [if_neg hwf]
  simp only [hs]
  rw [if_neg (by simp [hfid])]
  rw [if_neg (by simp [hn])]
  rw [if_neg (by simp [hcomp])]
  rw [if_neg hr]
  simp only [hg1]

theorem postSubmit_eq_genfail2 (now : Nat) (today : Date3) (rng : Rng) (fuel : Nat)
    (freshNonce : String) (req : SubmitReq) (st : Store) (s : GameSession)
    (shown : List Nat) (di : Nat)
    (hwf : ¬ (req.fid = 0 ∨ req.sessionId = "" ∨ req.selectedNumber = none ∨ req.nonce = ""))
    (hs : lookupK req.sessionId st.sessions = some s)
    (hfid : s.fid = req.fid) (hn : s.nonce = req.nonce) (hcomp : s.completed = false)
    (hr : ¬ TOTAL_ROUNDS ≤ s.round)
    (hg1 : generateNumbers rng (getRoundConfig ((s.round + 1 : Nat) : Int)).numberCount fuel
      = some (shown, di))
    (hg2 : generateFakeNumber rng shown fuel di = none) :
    postSubmit now today rng fuel freshNonce req st = (.err .internal, st) := by
  unfold postSubmit
  rw [if_neg hwf]
  simp only [hs]
  rw [if_neg (by simp [hfid])]
  rw [if_neg (by simp [hn])]
  rw [if_neg (by simp [hcomp])]
  rw [if_neg hr]
  simp only [hg1, hg2]

/-- C4 (amended): for a submit request that passes the handler's field
presence check (truthy player id, session id, chosen number and nonce),
whose session id resolves and whose player id matches, a nonce differing
from the session's current nonce always yields `InvalidNonce`,
regardless of the chosen number.  (As stated the claim also covers the
empty request nonce, which the presence check intercepts first — see the
counterexample.) -/
theorem invalid_nonce_spec (now : Nat) (today : Date3) (rng : Rng) (fuel : Nat)
    (freshNonce : String) (req : SubmitReq) (st : Store) (s : GameSession)
    (hs : lookupK req.sessionId st.sessions = some s)
    (hfid : req.fid = s.fid)
    (h1 : req.fid ≠ 0) (h2 : req.sessionId ≠ "") (h3 : req.selectedNumber ≠ none)
    (h4 : req.nonce ≠ "")
    (hnonce : req.nonce ≠ s.nonce) :
    postSubmit now today rng fuel freshNonce req st = (.err .invalidNonce, st) :=
  postSubmit_eq_invalidNonce now today rng fuel freshNonce req st s
    (by simp [h1, h2, h3, h4]) hs hfid.symm hnonce.symm

theorem invalid_nonce_spec_witness :
    postSubmit 0 ⟨2024, 0, 15⟩ rngId 20 "n9" ⟨7, "s1", some 105, "stale"⟩ storeW
      = (.err .invalidNonce, storeW) :=
  invalid_nonce_spec 0 ⟨2024, 0, 15⟩ rngId 20 "n9" ⟨7, "s1", some 105, "stale"⟩ storeW sessW
    (by decide) (by decide) (by decide) (by decide) (by decide) (by decide) (by decide)

/-- C4 counterexample: a request whose nonce is the empty string differs
from the stored nonce and resolves to the stored session with the right
player id, yet the handler fails with the missing-fields error (the
falsy-field presence check runs before the nonce comparison), not with
`InvalidNonce`. -/
theorem invalid_nonce_claim_cex :
    lookupK "s1" storeW.sessions = some sessW ∧
    sessW.fid = 7 ∧ ("" : String) ≠ sessW.nonce ∧
    (postSubmit 0 ⟨2024, 0, 15⟩ rngId 20 "n9" ⟨7, "s1", some 105, ""⟩ storeW).1
      = .err .missingFields ∧
    (postSubmit 0 ⟨2024, 0, 15⟩ rngId 20 "n9" ⟨7, "s1", some 105, ""⟩ storeW).1
      ≠ .err .invalidNonce := by decide

/-- C5: submitting to a session already in a terminal state — with the
matching player id and the stored nonce — always fails with
`AlreadyCompleted`; the terminal session is still resolvable by its id
(the lenient handler marks sessions completed and never deletes them),
so the failure is not `NotFound`. -/
theorem already_completed_spec (now : Nat) (today : Date3) (rng : Rng) (fuel : Nat)
    (freshNonce : String) (st : Store) (sid : String) (s : GameSession) (n : Int)
    (hs : lookupK sid st.sessions = some s) (hcomp : s.completed = true)
    (hfid : s.fid ≠ 0) (hsid : sid ≠ "") (hn : s.nonce ≠ "") :
    postSubmit now today rng fuel freshNonce ⟨s.fid, sid, some n, s.nonce⟩ st
      = (.err .alreadyCompleted, st) ∧
    getSession st sid = some s :=
  ⟨postSubmit_eq_alreadyCompleted now today rng fuel freshNonce
      ⟨s.fid, sid, some n, s.nonce⟩ st s (by simp [hfid, hsid, hn]) hs rfl rfl hcomp,
   hs⟩

theorem already_completed_spec_witness :
    postSubmit 0 ⟨2024, 0, 15⟩ rngId 20 "n9" ⟨7, "s1", some 999, "n1"⟩ storeWdone
      = (.err .alreadyCompleted, storeWdone) ∧
    getSession storeWdone "s1" = some sessWdone :=
  already_completed_spec 0 ⟨2024, 0, 15⟩ rngId 20 "n9" storeWdone "s1" sessWdone 999
    (by decide) (by decide) (by decide) (by decide) (by decide)

/-- C9: every client-error outcome of the submit handler — missing
fields, session not found, player-id mismatch, nonce mismatch, session
already completed — leaves the player and session stores exactly as they
were: all mutations happen only after every validation passes. -/
theorem error_atomicity_spec (now : Nat) (today : Date3) (rng : Rng) (fuel : Nat)
    (freshNonce : String) (req : SubmitReq) (st : Store) (res : SubmitResult)
    (st' : Store) (e : ErrKind)
    (heq : postSubmit now today rng fuel freshNonce req st = (res, st'))
    (herr : res = .err e) (hek : e ≠ .internal) : st' = st := by
  subst herr
  by_cases hwf : req.fid = 0 ∨ req.sessionId = "" ∨ req.selectedNumber = none ∨ req.nonce = ""
  · rw [postSubmit_eq_missing now today rng fuel freshNonce req st hwf] at heq
    simp only [Prod.mk.injEq] at heq
    exact heq.2.symm
  · rcases hlk : lookupK req.sessionId st.sessions with _ | s
    · rw [postSubmit_eq_notFound now today rng fuel freshNonce req st hwf hlk] at heq
      simp only [Prod.mk.injEq] at heq
      exact heq.2.symm
    · by_cases hfid : s.fid = req.fid
      · by_cases hnon : s.nonce = req.nonce
        · cases hcomp : s.completed
          · by_cases hr : TOTAL_ROUNDS ≤ s.round
            · rw [postSubmit_eq_terminal now today rng fuel freshNonce req st s hwf hlk
                hfid hnon hcomp hr] at heq
              simp only [Prod.mk.injEq] at heq
              exact SubmitResult.noConfusion heq.1
            · rcases hg1 : generateNumbers rng
                  (getRoundConfig ((s.round + 1 : Nat) : Int)).numberCount fuel with _ | ⟨shown, di⟩
              · rw [postSubmit_eq_genfail1 now today rng fuel freshNonce req st s hwf hlk
                  hfid hnon hcomp hr hg1] at heq
                simp only [Prod.mk.injEq] at heq
                exact heq.2.symm
              · rcases hg2 : generateFakeNumber rng shown fuel di with _ | ⟨fake, di2⟩
                · rw [postSubmit_eq_genfail2 now today rng fuel freshNonce req st s shown di
                    hwf hlk hfid hnon hcomp hr hg1 hg2] at heq
                  simp only [Prod.mk.injEq] at heq
                  exact heq.2.symm
                · rw [postSubmit_eq_next now today rng fuel freshNonce req st s shown di fake
                    di2 hwf hlk hfid hnon hcomp hr hg1 hg2] at heq
                  simp only [Prod.mk.injEq] at heq
                  exact SubmitResult.noConfusion heq.1
          · rw [postSubmit_eq_alreadyCompleted now today rng fuel freshNonce req st s hwf hlk
              hfid hnon hcomp] at heq
            simp only [Prod.mk.injEq] at heq
            exact heq.2.symm
        · rw [postSubmit_eq_invalidNonce now today rng fuel freshNonce req st s hwf hlk
            hfid hnon] at heq
          simp only [Prod.mk.injEq] at heq
          exact heq.2.symm
      · rw [postSubmit_eq_forbidden now today rng fuel freshNonce req st s hwf hlk hfid] at heq
        simp only [Prod.mk.injEq] at heq
        exact heq.2.symm

theorem error_atomicity_spec_witness :
    (postSubmit 0 ⟨2024, 0, 15⟩ rngId 20 "n9" ⟨7, "nope", some 1, "n1"⟩ storeW).2
      = storeW :=
  error_atomicity_spec 0 ⟨2024, 0, 15⟩ rngId 20 "n9" ⟨7, "nope", some 1, "n1"⟩ storeW
    (postSubmit 0 ⟨2024, 0, 15⟩ rngId 20 "n9" ⟨7, "nope", some 1, "n1"⟩ storeW).1
    (postSubmit 0 ⟨2024, 0, 15⟩ rngId 20 "n9" ⟨7, "nope", some 1, "n1"⟩ storeW).2
    ErrKind.notFound rfl (by decide) (by decide)

theorem lookupK_mem {K V : Type} [DecidableEq K] (k : K) (v : V) :
    ∀ l : List (K × V), lookupK k l = some v → (k, v) ∈ l := by
  intro l
  induction l with
  | nil => intro h; exact absurd h (by simp [lookupK])
  | cons hd t ih =>
    obtain ⟨a, b⟩ := hd
    intro h
    simp only [lookupK] at h
    split at h
    · rename_i hak
      simp only [Option.some.injEq] at h
      subst hak
      subst h
      exact List.mem_cons_self _ _
    · exact List.mem_cons_of_mem _ (ih h)

theorem mem_setK {K V : Type} [DecidableEq K] (k : K) (v : V) :
    ∀ (l : List (K × V)) (pr : K × V), pr ∈ setK k v l → pr = (k, v) ∨ pr ∈ l := by
  intro l
  induction l with
  | nil =>
    intro pr h
    simp [setK] at h
    exact Or.inl h
  | cons hd t ih =>
    obtain ⟨a, b⟩ := hd
    intro pr h
    simp only [setK] at h
    split at h
    · rcases List.mem_cons.1 h with h | h
      · exact Or.inl h
      · exact Or.inr (List.mem_cons_of_mem _ h)
    · rcases List.mem_cons.1 h with h | h
      · exact Or.inr (by simp [h])
      · rcases ih pr h with h | h
        · exact Or.inl h
        · exact Or.inr (List.mem_cons_of_mem _ h)

theorem daily_getPlayer_of_none (today : Date3) (st : Daily.StoreD) (fid : Nat)
    (h : lookupK fid st = none) :
    Daily.getPlayer today st fid
      = (Daily.freshPlayer fid, setK fid (Daily.freshPlayer fid) st) := by
  unfold Daily.getPlayer
  rw [h]

theorem daily_getPlayer_of_stale (today : Date3) (st : Daily.StoreD) (fid : Nat)
    (p : Daily.PlayerData) (lp : Date3)
    (h : lookupK fid st = some p) (hlp : p.lastPlayedAt = some lp) (hne : lp ≠ today) :
    Daily.getPlayer today st fid
      = ({ p with dailySessions := 0, tokensToday := 0 },
         setK fid { p with dailySessions := 0, tokensToday := 0 } st) := by
  unfold Daily.getPlayer
  rw [h]
  simp [hlp, hne]

theorem daily_getPlayer_of_today (today : Date3) (st : Daily.StoreD) (fid : Nat)
    (p : Daily.PlayerData)
    (h : lookupK fid st = some p) (hlp : p.lastPlayedAt = some today) :
    Daily.getPlayer today st fid = (p, st) := by
  unfold Daily.getPlayer
  rw [h]
  simp [hlp]

theorem daily_getPlayer_of_never (today : Date3) (st : Daily.StoreD) (fid : Nat)
    (p : Daily.PlayerData)
    (h : lookupK fid st = some p) (hlp : p.lastPlayedAt = none) :
    Daily.getPlayer today st fid = (p, st) := by
  unfold Daily.getPlayer
  rw [h]
  simp [hlp]

theorem daily_getPlayer_lookup (today : Date3) (st : Daily.StoreD) (fid : Nat) :
    lookupK fid (Daily.getPlayer today st fid).2 = some (Daily.getPlayer today st fid).1 := by
  rcases h : lookupK fid st with _ | p
  · rw [daily_getPlayer_of_none today st fid h]
    simp [lookupK_setK_self]
  · rcases hlp : p.lastPlayedAt with _ | lp
    · rw [daily_getPlayer_of_never today st fid p h hlp]
      simpa using h
    · by_cases hne : lp = today
      · rw [daily_getPlayer_of_today today st fid p h (by rw [hlp, hne])]
        simpa using h
      · rw [daily_getPlayer_of_stale today st fid p lp h hlp hne]
        simp [lookupK_setK_self]

theorem daily_getPlayer_idem (today : Date3) (st : Daily.StoreD) (fid : Nat) :
    Daily.getPlayer today ((Daily.getPlayer today st fid).2) fid
      = Daily.getPlayer today st fid := by
  rcases h : lookupK fid st with _ | p
  · rw [daily_getPlayer_of_none today st fid h]
    exact daily_getPlayer_of_never today _ fid (Daily.freshPlayer fid)
      (by simp [lookupK_setK_self]) rfl
  · rcases hlp : p.lastPlayedAt with _ | lp
    · rw [daily_getPlayer_of_never today st fid p h hlp]
      exact daily_getPlayer_of_never today st fid p h hlp
    · by_cases hne : lp = today
      · rw [daily_getPlayer_of_today today st fid p h (by rw [hlp, hne])]
        exact daily_getPlayer_of_today today st fid p h (by rw [hlp, hne])
      · rw [daily_getPlayer_of_stale today st fid p lp h hlp hne]
        rw [daily_getPlayer_of_stale today (setK fid { p with dailySessions := 0, tokensToday := 0 } st)
          fid { p with dailySessions := 0, tokensToday := 0 } lp (by simp [lookupK_setK_self])
          (by simpa using hlp) hne]
        simp [setK_setK]

theorem daily_getPlayer_inv (today : Date3) (st : Daily.StoreD) (fid : Nat)
    (h : InvD st) :
    (Daily.getPlayer today st fid).1.tokensToday ≤ Daily.MAX_TOKENS_PER_DAY ∧
    InvD (Daily.getPlayer today st fid).2 := by
  rcases hl : lookupK fid st with _ | p
  · rw [daily_getPlayer_of_none today st fid hl]
    refine ⟨by simp [Daily.freshPlayer, Daily.MAX_TOKENS_PER_DAY], ?_⟩
    intro pr hpr
    rcases mem_setK fid (Daily.freshPlayer fid) st pr hpr with h1 | h1
    · subst h1
      simp [Daily.freshPlayer, Daily.MAX_TOKENS_PER_DAY]
    · exact h pr h1
  · rcases hlp : p.lastPlayedAt with _ | lp
    · rw [daily_getPlayer_of_never today st fid p hl hlp]
      exact ⟨h _ (lookupK_mem fid p st hl), h⟩
    · by_cases hne : lp = today
      · rw [daily_getPlayer_of_today today st fid p hl (by rw [hlp, hne])]
        exact ⟨h _ (lookupK_mem fid p st hl), h⟩
      · rw [daily_getPlayer_of_stale today st fid p lp hl hlp hne]
        refine ⟨by simp [Daily.MAX_TOKENS_PER_DAY], ?_⟩
        intro pr hpr
        rcases mem_setK fid _ st pr hpr with h1 | h1
        · subst h1
          simp [Daily.MAX_TOKENS_PER_DAY]
        · exact h pr h1

theorem daily_awardTokens_eq (today : Date3) (st : Daily.StoreD) (fid : Nat) (amount : Int) :
    Daily.awardTokens today st fid amount
      = (min amount (Daily.MAX_TOKENS_PER_DAY - (Daily.getPlayer today st fid).1.tokensToday),
         if 0 < min amount
              (Daily.MAX_TOKENS_PER_DAY - (Daily.getPlayer today st fid).1.tokensToday) then
           setK fid
             { (Daily.getPlayer today st fid).1 with
                 tokensToday := (Daily.getPlayer today st fid).1.tokensToday
                   + min amount (Daily.MAX_TOKENS_PER_DAY
                       - (Daily.getPlayer today st fid).1.tokensToday),
                 totalTokens := (Daily.getPlayer today st fid).1.totalTokens
                   + min amount (Daily.MAX_TOKENS_PER_DAY
                       - (Daily.getPlayer today st fid).1.tokensToday) }
             (Daily.getPlayer today st fid).2
         else (Daily.getPlayer today st fid).2) := by
  simp only [Daily.awardTokens, Daily.updatePlayer]
  rw [daily_getPlayer_idem]
  split <;> rfl

theorem daily_awardTokens_inv (today : Date3) (st : Daily.StoreD) (fid : Nat)
    (amount : Int) (h : InvD st) : InvD (Daily.awardTokens today st fid amount).2 := by
  rw [daily_awardTokens_eq]
  obtain ⟨h1, h2⟩ := daily_getPlayer_inv today st fid h
  simp only
  split
  · intro pr hpr
    rcases mem_setK _ _ _ pr hpr with h3 | h3
    · subst h3
      simp only
      have h4 : min amount
          (Daily.MAX_TOKENS_PER_DAY - (Daily.getPlayer today st fid).1.tokensToday)
          ≤ Daily.MAX_TOKENS_PER_DAY - (Daily.getPlayer today st fid).1.tokensToday :=
        min_le_right _ _
      omega
    · exact h2 pr h3
  · exact h2

theorem daily_creditSeq_inv (today : Date3) (fid : Nat) :
    ∀ (amounts : List Int) (st : Daily.StoreD),
      InvD st → InvD (Daily.creditSeq today st fid amounts) := by
  intro amounts
  induction amounts with
  | nil => intro st h; simpa [Daily.creditSeq] using h
  | cons a rest ih =>
    intro st h
    have hstep := daily_awardTokens_inv today st fid a h
    simpa [Daily.creditSeq] using ih (Daily.awardTokens today st fid a).2 hstep

theorem sessionTokensInv_le (s : GameSession) (h : sessionTokensInv s) :
    s.tokensEarned ≤ MAX_TOKENS_PER_SESSION := by
  obtain ⟨h1, h2, h3⟩ := h
  cases hb : s.completed
  · obtain ⟨h4, h5⟩ := h2 hb
    rw [h1]
    simp only [TOKENS_PER_CORRECT, MAX_TOKENS_PER_SESSION]
    simp only [TOTAL_ROUNDS] at h5
    omega
  · have h4 := h3 hb
    rw [h1]
    simp only [TOKENS_PER_CORRECT, MAX_TOKENS_PER_SESSION]
    simp only [TOTAL_ROUNDS] at h4
    omega

theorem postSubmit_session_cap (now : Nat) (today : Date3) (rng : Rng) (fuel : Nat)
    (freshNonce : String) (req : SubmitReq) (st : Store) (s : GameSession)
    (hs : lookupK req.sessionId st.sessions = some s)
    (hinv : sessionTokensInv s) :
    (∀ c sc T ca wa tt pg,
      (postSubmit now today rng fuel freshNonce req st).1 = .terminal c sc T ca wa tt pg →
      T = TOKENS_PER_CORRECT * ca ∧ T ≤ MAX_TOKENS_PER_SESSION) ∧
    (∀ s', lookupK req.sessionId
        ((postSubmit now today rng fuel freshNonce req st).2).sessions = some s' →
      sessionTokensInv s' ∧ s'.tokensEarned ≤ MAX_TOKENS_PER_SESSION) := by
  obtain ⟨hi1, hi2, hi3⟩ := hinv
  have herrcase : ∀ e : ErrKind,
      postSubmit now today rng fuel freshNonce req st = (.err e, st) →
      (∀ c sc T ca wa tt pg,
        (postSubmit now today rng fuel freshNonce req st).1 = .terminal c sc T ca wa tt pg →
        T = TOKENS_PER_CORRECT * ca ∧ T ≤ MAX_TOKENS_PER_SESSION) ∧
      (∀ s', lookupK req.sessionId
          ((postSubmit now today rng fuel freshNonce req st).2).sessions = some s' →
        sessionTokensInv s' ∧ s'.tokensEarned ≤ MAX_TOKENS_PER_SESSION) := by
    intro e heq
    rw [heq]
    constructor
    · intro c sc T ca wa tt pg h
      exact SubmitResult.noConfusion h
    · intro s' hs'
      rw [hs] at hs'
      obtain rfl := Option.some.inj hs'
      exact ⟨⟨hi1, hi2, hi3⟩, sessionTokensInv_le s ⟨hi1, hi2, hi3⟩⟩
  by_cases hwf : req.fid = 0 ∨ req.sessionId = "" ∨ req.selectedNumber = none ∨ req.nonce = ""
  · exact herrcase _ (postSubmit_eq_missing now today rng fuel freshNonce req st hwf)
  by_cases hfid : s.fid = req.fid
  case neg =>
    exact herrcase _ (postSubmit_eq_forbidden now today rng fuel freshNonce req st s hwf hs hfid)
  by_cases hnon : s.nonce = req.nonce
  case neg =>
    exact herrcase _
      (postSubmit_eq_invalidNonce now today rng fuel freshNonce req st s hwf hs hfid hnon)
  rcases hcomp : s.completed with _ | _
  case pos.true =>
    exact herrcase _ (postSubmit_eq_alreadyCompleted now today rng fuel freshNonce req st s
      hwf hs hfid hnon hcomp)
  case pos.false =>
  obtain ⟨hsum, hrle⟩ := hi2 hcomp
  by_cases hr : TOTAL_ROUNDS ≤ s.round
  · have heq := postSubmit_eq_terminal now today rng fuel freshNonce req st s hwf hs hfid
      hnon hcomp hr
    rw [heq]
    have hT : nextTokens req s = TOKENS_PER_CORRECT * nextCorrect req s := by
      cases hb : isCorrectB req s <;>
        simp [nextTokens, nextCorrect, hb, hi1, TOKENS_PER_CORRECT] <;> ring
    have hca : nextCorrect req s + nextWrong req s = s.correctAnswers + s.wrongAnswers + 1 := by
      cases hb : isCorrectB req s <;> simp [nextCorrect, nextWrong, hb] <;> omega
    have hcale : nextCorrect req s ≤ TOTAL_ROUNDS := by
      simp only [TOTAL_ROUNDS] at *
      omega
    have hTle : nextTokens req s ≤ MAX_TOKENS_PER_SESSION := by
      rw [hT]
      simp only [TOKENS_PER_CORRECT, MAX_TOKENS_PER_SESSION]
      simp only [TOTAL_ROUNDS] at hcale
      omega
    constructor
    · intro c sc T ca wa tt pg h
      simp only [SubmitResult.terminal.injEq] at h
      obtain ⟨-, -, hT', hca', -, -, -⟩ := h
      rw [← hT', ← hca']
      exact ⟨hT, hTle⟩
    · intro s' hs'
      rw [getPlayerStats_sessions, recordSessionCompletion_sessions] at hs'
      rw [updateSession_lookup st req.sessionId s _ hs] at hs'
      obtain rfl := Option.some.inj hs'
      refine ⟨⟨by simpa using hT, ?_, ?_⟩, by simpa using hTle⟩
      · intro hcontra
        simp at hcontra
      · intro _
        simp only
        simp only [TOTAL_ROUNDS] at *
        omega
  · rcases hg1 : generateNumbers rng
        (getRoundConfig ((s.round + 1 : Nat) : Int)).numberCount fuel with _ | ⟨shown, di⟩
    · exact herrcase _ (postSubmit_eq_genfail1 now today rng fuel freshNonce req st s hwf hs
        hfid hnon hcomp hr hg1)
    rcases hg2 : generateFakeNumber rng shown fuel di with _ | ⟨fake, di2⟩
    · exact herrcase _ (postSubmit_eq_genfail2 now today rng fuel freshNonce req st s shown di
        hwf hs hfid hnon hcomp hr hg1 hg2)
    have heq := postSubmit_eq_next now today rng fuel freshNonce req st s shown di fake di2
      hwf hs hfid hnon hcomp hr hg1 hg2
    rw [heq]
    have hT : nextTokens req s = TOKENS_PER_CORRECT * nextCorrect req s := by
      cases hb : isCorrectB req s <;>
        simp [nextTokens, nextCorrect, hb, hi1, TOKENS_PER_CORRECT] <;> ring
    have hca : nextCorrect req s + nextWrong req s = s.correctAnswers + s.wrongAnswers + 1 := by
      cases hb : isCorrectB req s <;> simp [nextCorrect, nextWrong, hb] <;> omega
    have hTle : nextTokens req s ≤ MAX_TOKENS_PER_SESSION := by
      rw [hT]
      simp only [TOKENS_PER_CORRECT, MAX_TOKENS_PER_SESSION]
      simp only [TOTAL_ROUNDS] at *
      omega
    constructor
    · intro c sc T ca wa tt pg h
      exact SubmitResult.noConfusion h
    · intro s' hs'
      rw [updateSession_lookup st req.sessionId s _ hs] at hs'
      obtain rfl := Option.some.inj hs'
      refine ⟨⟨by simpa using hT, ?_, ?_⟩, by simpa using hTle⟩
      · intro _
        simp only
        constructor
        · simp only [TOTAL_ROUNDS] at *
          omega
        · simp only [TOTAL_ROUNDS] at *
          omega
      · intro hcontra
        simp only at hcontra
        rw [hcomp] at hcontra
        exact Bool.noConfusion hcontra

/-- C3: the daily token ledger (`awardTokens`) returns exactly
`min(amount, cap - alreadyCreditedThisPeriod)`, never negative; the
player's running total grows by exactly that amount; no sequence of
credit calls drives the stored per-period total above the cap; and for
the submit handler, any terminal `tokensEarned` and any stored session's
`tokensEarned` stay at or below `MAX_TOKENS_PER_SESSION`. -/
theorem credit_cap_spec :
    (∀ (today : Date3) (st : Daily.StoreD) (fid : Nat) (amount : Int),
      0 ≤ amount →
      (Daily.getPlayer today st fid).1.tokensToday ≤ Daily.MAX_TOKENS_PER_DAY →
      (Daily.awardTokens today st fid amount).1
          = min amount
              (Daily.MAX_TOKENS_PER_DAY - (Daily.getPlayer today st fid).1.tokensToday) ∧
      0 ≤ (Daily.awardTokens today st fid amount).1 ∧
      (∃ q, lookupK fid (Daily.awardTokens today st fid amount).2 = some q ∧
        q.totalTokens = (Daily.getPlayer today st fid).1.totalTokens
          + (Daily.awardTokens today st fid amount).1 ∧
        q.tokensToday = (Daily.getPlayer today st fid).1.tokensToday
          + (Daily.awardTokens today st fid amount).1 ∧
        q.tokensToday ≤ Daily.MAX_TOKENS_PER_DAY)) ∧
    (∀ (today : Date3) (st : Daily.StoreD) (fid : Nat) (amounts : List Int),
      InvD st → InvD (Daily.creditSeq today st fid amounts)) ∧
    (∀ (now : Nat) (today : Date3) (rng : Rng) (fuel : Nat) (freshNonce : String)
       (req : SubmitReq) (st : Store) (s : GameSession) (c sc : Bool)
       (T ca wa tt : Nat) (pg : Bool),
      lookupK req.sessionId st.sessions = some s → sessionTokensInv s →
      (postSubmit now today rng fuel freshNonce req st).1 = .terminal c sc T ca wa tt pg →
      T ≤ MAX_TOKENS_PER_SESSION) ∧
    (∀ (now : Nat) (today : Date3) (rng : Rng) (fuel : Nat) (freshNonce : String)
       (req : SubmitReq) (st : Store) (s s' : GameSession),
      lookupK req.sessionId st.sessions = some s → sessionTokensInv s →
      lookupK req.sessionId
          ((postSubmit now today rng fuel freshNonce req st).2).sessions = some s' →
      sessionTokensInv s' ∧ s'.tokensEarned ≤ MAX_TOKENS_PER_SESSION) := by
  refine ⟨?_, ?_, ?_, ?_⟩
  · intro today st fid amount hamt htt
    rw [daily_awardTokens_eq]
    simp only
    have hcap : (0 : Int) ≤ Daily.MAX_TOKENS_PER_DAY
        - (Daily.getPlayer today st fid).1.tokensToday := by omega
    have haw0 : 0 ≤ min amount
        (Daily.MAX_TOKENS_PER_DAY - (Daily.getPlayer today st fid).1.tokensToday) :=
      le_min hamt hcap
    refine ⟨trivial, haw0, ?_⟩
    split
    · refine ⟨_, lookupK_setK_self _ _ _, by simp, by simp, ?_⟩
      simp only
      have := min_le_right amount
        (Daily.MAX_TOKENS_PER_DAY - (Daily.getPlayer today st fid).1.tokensToday)
      omega
    · rename_i hneg
      have haw : min amount
          (Daily.MAX_TOKENS_PER_DAY - (Daily.getPlayer today st fid).1.tokensToday) = 0 := by
        omega
      exact ⟨_, daily_getPlayer_lookup today st fid, by omega, by omega, htt⟩
  · intro today st fid amounts h
    exact daily_creditSeq_inv today fid amounts st h
  · intro now today rng fuel freshNonce req st s c sc T ca wa tt pg hs hinv hterm
    exact ((postSubmit_session_cap now today rng fuel freshNonce req st s hs hinv).1
      c sc T ca wa tt pg hterm).2
  · intro now today rng fuel freshNonce req st s s' hs hinv hs'
    exact (postSubmit_session_cap now today rng fuel freshNonce req st s hs hinv).2 s' hs'

theorem submitCorrect_step (now : Nat) (today : Date3) (rng : Rng) (fuel : Nat)
    (freshNonce : String) (st : Store) (sid : String) (s : GameSession)
    (shown : List Nat) (di fake di2 : Nat)
    (hs : lookupK sid st.sessions = some s)
    (hfid : s.fid ≠ 0) (hsid : sid ≠ "") (hn : s.nonce ≠ "")
    (hcomp : s.completed = false) (hr : s.round < TOTAL_ROUNDS)
    (hg1 : generateNumbers rng (getRoundConfig ((s.round + 1 : Nat) : Int)).numberCount fuel
      = some (shown, di))
    (hg2 : generateFakeNumber rng shown fuel di = some (fake, di2)) :
    lookupK sid ((postSubmit now today rng fuel freshNonce
        ⟨s.fid, sid, some (s.fakeNumber : Int), s.nonce⟩ st).2).sessions
      = some { s with
          round := s.round + 1
          shownNumbers := shown
          fakeNumber := fake
          selectionOptions := createSelectionOptions rng 0 shown fake
            ((getRoundConfig ((s.round + 1 : Nat) : Int)).optionCount : Int)
          nonce := freshNonce
          roundStartedAt := now
          displayTime := (getRoundConfig ((s.round + 1 : Nat) : Int)).displayTime
          tokensEarned := s.tokensEarned + TOKENS_PER_CORRECT
          correctAnswers := s.correctAnswers + 1
          wrongAnswers := s.wrongAnswers } := by
  have hcor : isCorrectB ⟨s.fid, sid, some (s.fakeNumber : Int), s.nonce⟩ s = true := by
    simp [isCorrectB]
  have heq := postSubmit_eq_next now today rng fuel freshNonce
    ⟨s.fid, sid, some (s.fakeNumber : Int), s.nonce⟩ st s shown di fake di2
    (by simp [hfid, hsid, hn]) hs rfl rfl hcomp (by omega) hg1 hg2
  rw [heq]
  rw [updateSession_lookup st sid s _ hs]
  simp [nextTokens, nextCorrect, nextWrong, hcor]

theorem submitCorrect_terminal (now : Nat) (today : Date3) (rng : Rng) (fuel : Nat)
    (freshNonce : String) (st : Store) (sid : String) (s : GameSession)
    (hs : lookupK sid st.sessions = some s)
    (hfid : s.fid ≠ 0) (hsid : sid ≠ "") (hn : s.nonce ≠ "")
    (hcomp : s.completed = false) (hr : TOTAL_ROUNDS ≤ s.round) :
    (postSubmit now today rng fuel freshNonce
        ⟨s.fid, sid, some (s.fakeNumber : Int), s.nonce⟩ st).1
      = .terminal true true (s.tokensEarned + TOKENS_PER_CORRECT) (s.correctAnswers + 1)
          s.wrongAnswers ((now - s.startedAt) / 1000) (s.wrongAnswers = 0) := by
  have hcor : isCorrectB ⟨s.fid, sid, some (s.fakeNumber : Int), s.nonce⟩ s = true := by
    simp [isCorrectB]
  have heq := postSubmit_eq_terminal now today rng fuel freshNonce
    ⟨s.fid, sid, some (s.fakeNumber : Int), s.nonce⟩ st s
    (by simp [hfid, hsid, hn]) hs rfl rfl hcomp hr
  rw [heq]
  simp [nextTokens, nextCorrect, nextWrong, hcor]

/-- C7: a session played with the correct fake number in all 3 rounds
ends with a terminal response carrying `sessionComplete = true`,
`perfectGame = true`, 3 correct answers, 0 wrong answers, and
`tokensEarned = 3 * TOKENS_PER_CORRECT`, which is within (hence
unaffected by) the per-session maximum. -/
theorem perfect_session_spec (t1 t2 t3 : Nat) (d1 d2 d3 : Date3)
    (rng1 rng2 rng3 : Rng) (fuel : Nat) (n1 n2 n3 : String)
    (st0 : Store) (sid : String) (s0 : GameSession)
    (shownA : List Nat) (diA fakeA diA2 : Nat) (shownB : List Nat) (diB fakeB diB2 : Nat)
    (hs0 : lookupK sid st0.sessions = some s0)
    (hfid : s0.fid ≠ 0) (hsid : sid ≠ "") (hn0 : s0.nonce ≠ "")
    (hn1 : n1 ≠ "") (hn2 : n2 ≠ "")
    (hround : s0.round = 1) (hcomp : s0.completed = false)
    (hca : s0.correctAnswers = 0) (hwa : s0.wrongAnswers = 0) (hte : s0.tokensEarned = 0)
    (hg1 : generateNumbers rng1 (getRoundConfig ((2 : Nat) : Int)).numberCount fuel
      = some (shownA, diA))
    (hg2 : generateFakeNumber rng1 shownA fuel diA = some (fakeA, diA2))
    (hg3 : generateNumbers rng2 (getRoundConfig ((3 : Nat) : Int)).numberCount fuel
      = some (shownB, diB))
    (hg4 : generateFakeNumber rng2 shownB fuel diB = some (fakeB, diB2)) :
    (postSubmit t3 d3 rng3 fuel n3 ⟨s0.fid, sid, some (fakeB : Int), n2⟩
        (postSubmit t2 d2 rng2 fuel n2 ⟨s0.fid, sid, some (fakeA : Int), n1⟩
          (postSubmit t1 d1 rng1 fuel n1
            ⟨s0.fid, sid, some (s0.fakeNumber : Int), s0.nonce⟩ st0).2).2).1
      = .terminal true true (3 * TOKENS_PER_CORRECT) 3 0 ((t3 - s0.startedAt) / 1000) true ∧
    3 * TOKENS_PER_CORRECT ≤ MAX_TOKENS_PER_SESSION := by
  have hr1 : s0.round < TOTAL_ROUNDS := by
    rw [hround]
    simp [TOTAL_ROUNDS]
  have hg1' : generateNumbers rng1
      (getRoundConfig ((s0.round + 1 : Nat) : Int)).numberCount fuel = some (shownA, diA) := by
    rw [hround]
    exact hg1
  have h1 := submitCorrect_step t1 d1 rng1 fuel n1 st0 sid s0 shownA diA fakeA diA2
    hs0 hfid hsid hn0 hcomp hr1 hg1' hg2
  have hr2 : s0.round + 1 < TOTAL_ROUNDS := by
    rw [hround]
    simp [TOTAL_ROUNDS]
  have hg3' : generateNumbers rng2
      (getRoundConfig ((s0.round + 1 + 1 : Nat) : Int)).numberCount fuel
        = some (shownB, diB) := by
    rw [hround]
    exact hg3
  have h2 := submitCorrect_step t2 d2 rng2 fuel n2
    (postSubmit t1 d1 rng1 fuel n1
      ⟨s0.fid, sid, some (s0.fakeNumber : Int), s0.nonce⟩ st0).2
    sid _ shownB diB fakeB diB2 h1 hfid hsid hn1 hcomp hr2 hg3' hg4
  have hr3 : TOTAL_ROUNDS ≤ s0.round + 1 + 1 := by
    rw [hround]
    simp [TOTAL_ROUNDS]
  have h3 := submitCorrect_terminal t3 d3 rng3 fuel n3
    (postSubmit t2 d2 rng2 fuel n2 ⟨s0.fid, sid, some (fakeA : Int), n1⟩
      (postSubmit t1 d1 rng1 fuel n1
        ⟨s0.fid, sid, some (s0.fakeNumber : Int), s0.nonce⟩ st0).2).2
    sid _ h2 hfid hsid hn2 hcomp hr3
  refine ⟨?_, by simp [TOKENS_PER_CORRECT, MAX_TOKENS_PER_SESSION]⟩
  refine Eq.trans h3 ?_
  simp [hte, hca, hwa, TOKENS_PER_CORRECT]

theorem credit_cap_spec_witness :
    (Daily.awardTokens ⟨2024, 0, 15⟩ [] 7 2).1
        = min 2 (Daily.MAX_TOKENS_PER_DAY
            - (Daily.getPlayer ⟨2024, 0, 15⟩ [] 7).1.tokensToday) ∧
    InvD (Daily.creditSeq ⟨2024, 0, 15⟩ [] 7 [1, 2, 3]) ∧
    (30 : Nat) ≤ MAX_TOKENS_PER_SESSION ∧
    sessionTokensInv sessW ∧ sessW.tokensEarned ≤ MAX_TOKENS_PER_SESSION := by
  refine ⟨(credit_cap_spec.1 ⟨2024, 0, 15⟩ [] 7 2 (by decide) (by decide)).1,
    credit_cap_spec.2.1 ⟨2024, 0, 15⟩ [] 7 [1, 2, 3]
      (fun pr hpr => absurd hpr (List.not_mem_nil pr)),
    credit_cap_spec.2.2.1 0 ⟨2024, 0, 15⟩ rngId 20 "n9" ⟨7, "s1", some 105, "n1"⟩
      storeW3 sessW3 true true 30 3 0 0 true (by decide)
      ⟨by decide, fun h => ⟨by decide, by decide⟩, fun h => absurd h (by decide)⟩
      (by decide),
    ?_⟩
  exact credit_cap_spec.2.2.2 0 ⟨2024, 0, 15⟩ rngId 20 "n9" ⟨7, "s1", some 1, ""⟩
    storeW sessW sessW (by decide)
    ⟨by decide, fun h => ⟨by decide, by decide⟩, fun h => absurd h (by decide)⟩
    (by decide)

theorem perfect_session_spec_witness :
    (postSubmit 0 ⟨2024, 0, 15⟩ rngId 20 "n4" ⟨7, "s1", some 103, "n3"⟩
        (postSubmit 0 ⟨2024, 0, 15⟩ rngId 20 "n3" ⟨7, "s1", some 104, "n2"⟩
          (postSubmit 0 ⟨2024, 0, 15⟩ rngId 20 "n2"
            ⟨7, "s1", some 105, "n1"⟩ storeW).2).2).1
      = .terminal true true (3 * TOKENS_PER_CORRECT) 3 0 0 true ∧
    3 * TOKENS_PER_CORRECT ≤ MAX_TOKENS_PER_SESSION :=
  perfect_session_spec 0 0 0 ⟨2024, 0, 15⟩ ⟨2024, 0, 15⟩ ⟨2024, 0, 15⟩
    rngId rngId rngId 20 "n2" "n3" "n4" storeW "s1" sessW
    [100, 101, 102, 103] 4 104 5 [100, 101, 102] 3 103 4
    (by decide) (by decide) (by decide) (by decide) (by decide) (by decide)
    (by decide) (by decide) (by decide) (by decide) (by decide)
    (by decide) (by decide) (by decide) (by decide)
